import Mathlib

/-!
# Graphics memory allocator (`mx5x/libgralloc/gralloc.cpp`)

A shallow embedding of the allocation engine of the i.MX5 gralloc module:
the layout computation of `gralloc_alloc`, the framebuffer slot bitmap of
`gralloc_alloc_framebuffer_locked`, the contiguous-memory connection state
machine of `init_ion_area`, the heap allocator `gralloc_alloc_buffer`, the
teardown `gralloc_free` and the module state written by `gralloc_device_open`.

C integers are mathematical integers with the 32-bit conversions written out.
Calls into the operating system and into other translation units are recorded
in a trace and take their results from an explicit record of outcomes.
-/

namespace Gralloc

/-! ## Machine integers -/

/-- Conversion of a value to `size_t` / `uint32_t` (32 bits, unsigned). -/
def toSizeT (x : Int) : Int := x % 4294967296

/-- Conversion of a value to `int` (32 bits, two's complement). -/
def toInt32 (x : Int) : Int := (x + 2147483648) % 4294967296 - 2147483648

/-- Rounding `x` up to the nearest multiple of `k`, over the mathematical
integers: the reading the specification gives to the alignment macros. -/
def roundUpTo (k x : Int) : Int := (x + (k - 1)) / k * k

/-! ## Constants of the Android headers -/

/-- Value of `EINVAL` in `errno.h`. -/
def EINVAL : Int := 22

/-- Value of `ENOMEM` in `errno.h`. -/
def ENOMEM : Int := 12

/-- Usage bit `GRALLOC_USAGE_HW_TEXTURE` of `hardware/gralloc.h`. -/
def GRALLOC_USAGE_HW_TEXTURE : Nat := 0x100

/-- Usage bit `GRALLOC_USAGE_HW_2D` of `hardware/gralloc.h`. -/
def GRALLOC_USAGE_HW_2D : Nat := 0x400

/-- Usage bit `GRALLOC_USAGE_HW_FB` of `hardware/gralloc.h`. -/
def GRALLOC_USAGE_HW_FB : Nat := 0x1000

/-- Modelled from the spec: the flag bits of `private_handle_t` are declared in
`gralloc_priv.h`, which is not among the sources; the handle carries "a flag
marking it as a framebuffer slice plus the contiguous-memory flag". This is the
framebuffer-slice bit. -/
def PRIV_FLAGS_FRAMEBUFFER : Nat := 0x1

/-- Modelled from the spec: the contiguous-memory bit of the handle flags
(declared in `gralloc_priv.h`, not among the sources), a bit distinct from
`PRIV_FLAGS_FRAMEBUFFER`. -/
def PRIV_FLAGS_USES_ION : Nat := 0x2

/-- Value of `PAGE_SIZE` on the platform. -/
def PAGE_SIZE : Int := 4096

/-- Pixel formats: the thirteen enumerators `gralloc_alloc` recognises, and
`other code` for an `int` that equals none of them. -/
inductive PixelFormat where
  | RGBA_8888
  | RGBX_8888
  | RGB_888
  | RGB_565
  | BGRA_8888
  | RGBA_5551
  | RGBA_4444
  | YCbCr_420_SP
  | YCbCr_422_I
  | YCbCr_422_SP
  | YV12
  | YCbCr_420_P
  | YCbCr_422_P
  | other (code : Int)
  deriving DecidableEq, Repr

/-! ## Alignment macros -/

/-- Modelled from the spec: `ALIGN_PIXEL_64` is declared in `gralloc_priv.h`,
which is not among the sources; the value is "rounded up to the nearest
multiple of 64". It is applied to `int` arguments, so the addition is an `int`
addition. -/
def ALIGN_PIXEL_64 (x : Int) : Int := toInt32 (x + 63) / 64 * 64

/-- Modelled from the spec: `ALIGN_PIXEL_4096` (declared in `gralloc_priv.h`)
rounds up "to the nearest multiple of 4096". It is applied to `size_t`
arguments, so the addition is an unsigned addition. -/
def ALIGN_PIXEL_4096 (x : Int) : Int := toSizeT (x + 4095) / 4096 * 4096

/-- Modelled from the spec: `ALIGN_PIXEL_128` (declared in `gralloc_priv.h`)
gives the aligned height of the display, a multiple of 128. It is applied to
the unsigned `yres`. -/
def ALIGN_PIXEL_128 (x : Int) : Int := toSizeT (x + 127) / 128 * 128

/-- Modelled from the spec: `ALIGN_PIXEL` (declared in `gralloc_priv.h`) rounds
up "to a smaller platform alignment"; the alignment `a` is a parameter. It is
applied to `int` arguments. -/
def ALIGN_PIXEL (a : Int) (x : Int) : Int := toInt32 (x + (a - 1)) / a * a

/-- Modelled from the spec: `roundUpToPageSize` is declared in `gr.h`, which is
not among the sources; the size is "page-rounded". -/
def roundUpToPageSize (x : Int) : Int :=
  toSizeT (x + (PAGE_SIZE - 1)) / PAGE_SIZE * PAGE_SIZE

/-! ## Layout computation of `gralloc_alloc` (lines 328-381) -/

/-- The test of line 329-332: the six formats of the luma-chroma branch. -/
def isYUV : PixelFormat → Bool
  | .YCbCr_420_SP | .YCbCr_422_I | .YCbCr_422_SP
  | .YV12 | .YCbCr_420_P | .YCbCr_422_P => true
  | _ => false

/-- The `int luma_size` of line 343. -/
def luma_size (alignedw alignedh : Int) : Int :=
  toInt32 (ALIGN_PIXEL_4096 (toSizeT (alignedw * alignedh)))

/-- The `int chroma_size` of the switch of lines 344-357; `none` is the
`default` case. -/
def chroma_size (format : PixelFormat) (alignedw alignedh : Int) : Option Int :=
  match format with
  | .YCbCr_422_SP | .YCbCr_422_I | .YCbCr_422_P =>
      some (toInt32 (toSizeT
        (ALIGN_PIXEL_4096 (toSizeT (alignedw * alignedh) / 2) * 2)))
  | .YCbCr_420_SP | .YCbCr_420_P | .YV12 =>
      some (toInt32 (toSizeT
        (ALIGN_PIXEL_4096 (toSizeT (toSizeT (alignedw / 2 * alignedh) / 2)) * 2)))
  | _ => none

/-- The `int bpp` of the switch of lines 363-379; `none` is the `default`
case. -/
def bpp : PixelFormat → Option Int
  | .RGBA_8888 | .RGBX_8888 | .BGRA_8888 => some 4
  | .RGB_888 => some 3
  | .RGB_565 | .RGBA_5551 | .RGBA_4444 => some 2
  | _ => none

/-- The three `size_t` variables `size`, `alignedw`, `alignedh` at line 382. -/
structure Layout where
  alignedw : Int
  alignedh : Int
  size : Int
  deriving DecidableEq, Repr

/-- Lines 328-381 of `gralloc_alloc`: the layout of a request, `none` when the
code returns `-EINVAL`. The parameter `a` is the alignment of `ALIGN_PIXEL`. -/
def gralloc_layout (a : Int) (w h : Int) (format : PixelFormat) : Option Layout :=
  if isYUV format then
    let alignedw := toSizeT (ALIGN_PIXEL_64 w)
    let alignedh := toSizeT (ALIGN_PIXEL_64 h)
    let luma := luma_size alignedw alignedh
    match chroma_size format alignedw alignedh with
    | none => none
    | some chroma => some ⟨alignedw, alignedh, toSizeT (toInt32 (luma + chroma))⟩
  else
    let alignedw := toSizeT (ALIGN_PIXEL a w)
    let alignedh := toSizeT (ALIGN_PIXEL a h)
    match bpp format with
    | none => none
    | some b => some ⟨alignedw, alignedh, toSizeT (toSizeT (alignedw * alignedh) * b)⟩

/-! ## Handles and module state -/

/-- Modelled from the spec: the magic number of `private_handle_t::validate`
(declared in `gralloc_priv.h`, not among the sources), the "recognizable
shape/magic" of a handle. -/
def sMagic : Int := 0x3141592

/-- The fields of `private_handle_t` that the allocator reads or writes. The
field `handle` is the backend reference (`none` is the null pointer); `format`
is the pixel format stored by `gralloc_alloc`. -/
structure private_handle_t where
  fd : Int
  magic : Int
  flags : Nat
  size : Int
  offset : Int
  base : Int
  lockState : Int
  phys : Int
  handle : Option Int
  usage : Nat
  format : PixelFormat
  width : Int
  height : Int
  deriving DecidableEq, Repr

/-- Modelled from the spec: the constructor `private_handle_t(fd, size, flags)`
of `gralloc_priv.h` (not among the sources): it stores the descriptor, the size
and the flags, sets the magic, and zeroes every other field. -/
def private_handle_t.new (fd size : Int) (flags : Nat) : private_handle_t :=
  { fd := fd, magic := sMagic, flags := flags, size := toInt32 size, offset := 0,
    base := 0, lockState := 0, phys := 0, handle := none, usage := 0,
    format := .other 0, width := 0, height := 0 }

/-- Modelled from the spec: `private_handle_t::validate` (declared in
`gralloc_priv.h`, not among the sources), a "structural check (non-null,
recognizable shape/magic)"; negative when the check fails. -/
def private_handle_t.validate : Option private_handle_t → Int
  | none => -EINVAL
  | some hnd => if hnd.magic = sMagic then 0 else -EINVAL

/-- The fields of `private_module_t` that the allocator reads or writes;
`line_length` is `finfo.line_length` and `yres` is `info.yres`. -/
structure private_module_t where
  framebuffer : Option private_handle_t
  flags : Nat
  numBuffers : Nat
  bufferMask : Nat
  currentBuffer : Int
  ion_master : Int
  master_phys : Int
  line_length : Int
  yres : Int
  deriving DecidableEq, Repr

/-- The initial value of `HAL_MODULE_INFO_SYM` (lines 85-114); the display
geometry is not part of the initialiser and is zero. -/
def HAL_MODULE_INFO_SYM : private_module_t :=
  { framebuffer := none, flags := 0, numBuffers := 0, bufferMask := 0,
    currentBuffer := 0, ion_master := -1, master_phys := 0, line_length := 0,
    yres := 0 }

/-- Calls that leave `gralloc.cpp`, in the order they are issued. -/
inductive Call where
  | lock
  | unlock
  | mapFrameBufferLocked
  | dup (fd : Int)
  | ion_open
  | ion_alloc (fd size : Int)
  | ion_share (fd : Int)
  | ion_phys (fd : Int)
  | ion_free (fd : Int)
  | ion_import (fd : Int)
  | ashmem_create_region (size : Int)
  | terminateBuffer
  | munmap (base size : Int)
  | close (fd : Int)
  | fb_device_open
  deriving DecidableEq, Repr

/-- Outcomes of the calls one entry point can issue: what the operating system
and the other translation units answer. `errno` values are error numbers, hence
natural numbers. -/
structure Sys where
  pixelAlign : Int
  mapFrameBufferLocked : private_module_t → Int × private_module_t
  dup : Int → Int
  ion_open : Int
  ion_open_errno : Nat
  ion_alloc : Int
  ion_alloc_handle : Int
  ion_share : Int
  ion_share_fd : Int
  ion_phys : Int
  ion_phys_errno : Nat
  ion_free : Int
  ashmem_create_region : Int
  ashmem_errno : Nat
  munmap : Int
  fb_device_open : Int

/-- The results of an allocation: the returned code, the module state, the
handle stored through `pHandle` (if one was stored) and the calls issued. -/
structure AllocResult where
  ret : Int
  module : private_module_t
  handle : Option private_handle_t
  trace : List Call
  deriving DecidableEq

/-- The results of `gralloc_alloc`: as `AllocResult`, with the value stored
through `pStride` (if one was stored). -/
structure GrallocResult where
  ret : Int
  module : private_module_t
  handle : Option private_handle_t
  stride : Option Int
  trace : List Call
  deriving DecidableEq

/-- The results of a call that produces no handle. -/
structure StateResult where
  ret : Int
  module : private_module_t
  trace : List Call
  deriving DecidableEq

/-! ## Connection manager (lines 189-219) -/

/-- The function `init_ion_area_locked`: one open attempt. -/
def init_ion_area_locked (env : Sys) (m : private_module_t) : Int × private_module_t :=
  let master_fd := env.ion_open
  if master_fd ≥ 0 then (0, { m with ion_master := master_fd })
  else (-(env.ion_open_errno : Int), m)

/-- The function `init_ion_area`. -/
def init_ion_area (env : Sys) (m : private_module_t) : StateResult :=
  let err := m.ion_master
  if err = -1 then
    let r := init_ion_area_locked env m
    let m2 := if r.1 ≠ 0 then { r.2 with ion_master := r.1 } else r.2
    ⟨r.1, m2, [.lock, .ion_open, .unlock]⟩
  else if err < 0 then ⟨err, m, [.lock, .unlock]⟩
  else ⟨0, m, [.lock, .unlock]⟩

/-! ## Heap allocator (lines 221-317) -/

/-- Lines 300-316 of `gralloc_alloc_buffer`: the handle is built when `err` is
zero, and `err` is returned. -/
def alloc_buffer_finish (m : private_module_t) (err fd size : Int) (flags : Nat)
    (buffer_handle : Option Int) (trace : List Call) : AllocResult :=
  if err = 0 then
    let hnd := { private_handle_t.new fd size flags with
                 offset := 0, base := 0, lockState := 0, handle := buffer_handle }
    let hnd := if flags &&& PRIV_FLAGS_USES_ION ≠ 0 then
                 { hnd with phys := m.master_phys } else hnd
    ⟨err, m, some hnd, trace⟩
  else ⟨err, m, none, trace⟩

/-- The label `try_ashmem` (lines 247-252) followed by lines 300-316; `err` is
zero whenever the label is reached. -/
def try_ashmem (env : Sys) (m : private_module_t) (size : Int) (flags : Nat)
    (trace : List Call) : AllocResult :=
  let fd := env.ashmem_create_region
  let err : Int := if fd < 0 then -(env.ashmem_errno : Int) else 0
  alloc_buffer_finish m err fd size flags none (trace ++ [.ashmem_create_region size])

/-- The function `gralloc_alloc_buffer`. -/
def gralloc_alloc_buffer (env : Sys) (m : private_module_t) (size : Int) (usage : Nat) :
    AllocResult :=
  let size := roundUpToPageSize size
  let flags : Nat := 0
  let flags := if usage &&& GRALLOC_USAGE_HW_TEXTURE ≠ 0 then
                 flags ||| PRIV_FLAGS_USES_ION else flags
  let flags := if usage &&& GRALLOC_USAGE_HW_2D ≠ 0 then
                 flags ||| PRIV_FLAGS_USES_ION else flags
  if flags &&& PRIV_FLAGS_USES_ION = 0 then
    try_ashmem env m size flags []
  else
    let c := init_ion_area env m
    let m := c.module
    if c.ret = 0 then
      let t := c.trace ++ [.ion_alloc m.ion_master size]
      if env.ion_alloc < 0 then ⟨env.ion_alloc, m, none, t⟩
      else
        let t := t ++ [.ion_share m.ion_master]
        if env.ion_share < 0 then ⟨env.ion_share, m, none, t⟩
        else
          let m := { m with master_phys := env.ion_phys }
          let t := t ++ [.ion_phys m.ion_master]
          if env.ion_phys = 0 then ⟨-(env.ion_phys_errno : Int), m, none, t⟩
          else
            let t := t ++ [.ion_free m.ion_master]
            if env.ion_free < 0 then ⟨env.ion_free, m, none, t⟩
            else
              alloc_buffer_finish m env.ion_free env.ion_share_fd size flags
                (some env.ion_alloc_handle) t
    else if usage &&& GRALLOC_USAGE_HW_2D = 0 then
      try_ashmem env m size (flags &&& (0xFFFFFFFF ^^^ PRIV_FLAGS_USES_ION)) c.trace
    else
      alloc_buffer_finish m c.ret (-1) size flags none c.trace

/-! ## Framebuffer slot manager (lines 120-187) -/

/-- The `size_t bufferSize` of lines 138 and 415. -/
def bufferSize (m : private_module_t) : Int :=
  toSizeT (m.line_length * ALIGN_PIXEL_128 m.yres)

/-- The loop of lines 162-168, with `n` iterations left, the loop variable `i`,
the current `m->bufferMask` and the current `vaddr`; it returns the final
`m->bufferMask` and `vaddr`. The variable `vaddr` is a 32-bit `intptr_t`, so
the addition of line 167 wraps. -/
def find_free_slot (bufferMask : Nat) (bufferSize : Int) :
    Nat → Nat → Nat → Int → Nat × Int
  | 0, _, mask, vaddr => (mask, vaddr)
  | n + 1, i, mask, vaddr =>
    if bufferMask &&& (1 <<< i) = 0 then (mask ||| (1 <<< i), vaddr)
    else find_free_slot bufferMask bufferSize n (i + 1) mask (toInt32 (vaddr + bufferSize))

/-- Lines 127-134: the framebuffer is mapped on first use. The result is the
error code (zero when nothing had to be done), the module state and the calls
issued. -/
def map_on_first_use (env : Sys) (m : private_module_t) :
    Int × private_module_t × List Call :=
  if m.framebuffer.isNone then
    ((env.mapFrameBufferLocked m).1, (env.mapFrameBufferLocked m).2,
      [.mapFrameBufferLocked])
  else (0, m, [])

/-- The function `gralloc_alloc_framebuffer_locked`. The result is `none` where
the C code has no defined behaviour: a shift `1LU << numBuffers` by 32 or more,
or a null `m->framebuffer` after the mapping step. The address `vaddr` and the
fields `base`, `offset` and `phys` of the handle are 32-bit `intptr_t` / `int`
values (lines 156-172), so every sum and difference is converted. -/
def gralloc_alloc_framebuffer_locked (env : Sys) (m : private_module_t) (size : Int)
    (usage : Nat) : Option AllocResult :=
  let s := map_on_first_use env m
  let m := s.2.1
  if s.1 < 0 then some ⟨s.1, m, none, s.2.2⟩
  else
    let bufferMask := m.bufferMask
    let numBuffers := m.numBuffers
    let bufferSize := bufferSize m
    if numBuffers = 1 then
      let newUsage := (usage &&& (0xFFFFFFFF ^^^ GRALLOC_USAGE_HW_FB)) ||| GRALLOC_USAGE_HW_2D
      let r := gralloc_alloc_buffer env m bufferSize newUsage
      some { r with trace := s.2.2 ++ [.unlock] ++ r.trace ++ [.lock] }
    else if 32 ≤ numBuffers then none
    else if bufferMask ≥ (1 <<< numBuffers) - 1 then some ⟨-ENOMEM, m, none, s.2.2⟩
    else
      match m.framebuffer with
      | none => none
      | some fb =>
        let hnd := private_handle_t.new (env.dup fb.fd) size
                     (PRIV_FLAGS_USES_ION ||| PRIV_FLAGS_FRAMEBUFFER)
        let slot := find_free_slot bufferMask bufferSize numBuffers 0 m.bufferMask
                      (toInt32 fb.base)
        let vaddr := slot.2
        let offset := toInt32 (vaddr - toInt32 fb.base)
        let hnd := { hnd with base := vaddr, offset := offset,
                              phys := toInt32 (toInt32 fb.phys + offset) }
        some ⟨0, { m with bufferMask := slot.1 }, some hnd, s.2.2 ++ [.dup fb.fd]⟩

/-- The function `gralloc_alloc_framebuffer`: the locked function between
`pthread_mutex_lock` and `pthread_mutex_unlock`. -/
def gralloc_alloc_framebuffer (env : Sys) (m : private_module_t) (size : Int)
    (usage : Nat) : Option AllocResult :=
  match gralloc_alloc_framebuffer_locked env m size usage with
  | none => none
  | some r => some { r with trace := [.lock] ++ r.trace ++ [.unlock] }

/-! ## Entry points (lines 321-437) -/

/-- Lines 383-401 of `gralloc_alloc`: the dispatch to a backend and the
completion of the handle. The result is `none` where the C code has no defined
behaviour: the backend returned a non-negative code without storing a handle,
and the handle is dereferenced. -/
def gralloc_alloc_tail (env : Sys) (m : private_module_t) (L : Layout)
    (format : PixelFormat) (usage : Nat) : Option GrallocResult :=
  let r := if usage &&& GRALLOC_USAGE_HW_FB ≠ 0 then
             gralloc_alloc_framebuffer env m L.size usage
           else some (gralloc_alloc_buffer env m L.size usage)
  match r with
  | none => none
  | some r =>
    if r.ret < 0 then some ⟨r.ret, r.module, r.handle, none, r.trace⟩
    else
      match r.handle with
      | none => none
      | some hnd =>
        let hnd := { hnd with usage := usage, format := format,
                              width := toInt32 L.alignedw, height := toInt32 L.alignedh }
        some ⟨0, r.module, some hnd, some (toInt32 L.alignedw), r.trace⟩

/-- The function `gralloc_alloc`; `pHandle` and `pStride` tell whether the
output pointers are non-null. -/
def gralloc_alloc (env : Sys) (m : private_module_t) (w h : Int) (format : PixelFormat)
    (usage : Nat) (pHandle pStride : Bool) : Option GrallocResult :=
  if !pHandle || !pStride then some ⟨-EINVAL, m, none, none, []⟩
  else
    match gralloc_layout env.pixelAlign w h format with
    | none => some ⟨-EINVAL, m, none, none, []⟩
    | some L => gralloc_alloc_tail env m L format usage

/-- The function `gralloc_free`. The result is `none` where the C code has no
defined behaviour: a null `m->framebuffer`, a division by a zero `bufferSize`,
or a shift `1 << index` with `index` outside `0..31`. -/
def gralloc_free (env : Sys) (m : private_module_t) (handle : Option private_handle_t) :
    Option StateResult :=
  if private_handle_t.validate handle < 0 then some ⟨-EINVAL, m, []⟩
  else
    match handle with
    | none => none
    | some hnd =>
      if hnd.flags &&& PRIV_FLAGS_FRAMEBUFFER ≠ 0 then
        match m.framebuffer with
        | none => none
        | some fb =>
          let bufferSize := bufferSize m
          if bufferSize = 0 then none
          else
            let index := toInt32 (toSizeT (toInt32 (hnd.base - fb.base)) / bufferSize)
            if index < 0 ∨ 32 ≤ index then none
            else
              some ⟨0, { m with bufferMask :=
                          m.bufferMask &&& (0xFFFFFFFF ^^^ (1 <<< index.toNat)) },
                    [.close hnd.fd]⟩
      else
        let t : List Call :=
          if hnd.flags &&& PRIV_FLAGS_USES_ION ≠ 0 then
            [.terminateBuffer, .ion_open, .ion_import env.ion_open,
             .munmap hnd.base hnd.size, .ion_free env.ion_open, .close env.ion_open]
          else [.terminateBuffer]
        some ⟨0, m, t ++ [.close hnd.fd]⟩

/-- The function `gralloc_device_open`; `gpu0` tells whether `name` equals
`GRALLOC_HARDWARE_GPU0`. The device object built on that branch is not part of
the module state. On the other branch the result of `fb_device_open` (defined
in another translation unit) is an outcome of `env`, and its effect on the
display fields of the module is not modelled. -/
def gralloc_device_open (env : Sys) (m : private_module_t) (gpu0 : Bool) : StateResult :=
  if gpu0 then ⟨0, m, []⟩
  else
    ⟨env.fb_device_open, { m with flags := 0, ion_master := -1, master_phys := 0 },
      [.fb_device_open]⟩

/-! ## Sequences of calls -/

/-- The module state before the `k`-th (counting from zero) of a sequence of
calls of `gralloc_alloc_framebuffer_locked` with no free in between; call `j`
takes its outcomes from `env j` and its arguments from `size j`, `usage j`. -/
def framebuffer_alloc_run (env : Nat → Sys) (size : Nat → Int) (usage : Nat → Nat)
    (m : private_module_t) : Nat → Option private_module_t
  | 0 => some m
  | k + 1 =>
    match framebuffer_alloc_run env size usage m k with
    | none => none
    | some mk =>
      match gralloc_alloc_framebuffer_locked (env k) mk (size k) (usage k) with
      | none => none
      | some r => some r.module

/-- Successive calls of `init_ion_area`, one per element of `envs`: the codes
returned in order, the final module state and the calls issued. -/
def init_ion_area_run : List Sys → private_module_t → List Int × private_module_t × List Call
  | [], m => ([], m, [])
  | env :: rest, m =>
    let r := init_ion_area env m
    let s := init_ion_area_run rest r.module
    (r.ret :: s.1, s.2.1, r.trace ++ s.2.2)

/-- Number of open attempts on the contiguous-memory backend in a trace. -/
def open_attempts (trace : List Call) : Nat := trace.count .ion_open

/-- The operations of the module that touch `ion_master`. -/
inductive IonOp where
  | init_ion_area (env : Sys)
  | gralloc_device_open (env : Sys) (gpu0 : Bool)

/-- One operation on `ion_master`. -/
def ion_step (m : private_module_t) : IonOp → StateResult
  | .init_ion_area env => init_ion_area env m
  | .gralloc_device_open env gpu0 => gralloc_device_open env m gpu0

/-- A sequence of operations on `ion_master`: the final module state and the
calls issued. -/
def ion_run : List IonOp → private_module_t → private_module_t × List Call
  | [], m => (m, [])
  | op :: rest, m =>
    let r := ion_step m op
    let s := ion_run rest r.module
    (s.1, r.trace ++ s.2)

/-- The operation is an open of a device other than `GRALLOC_HARDWARE_GPU0`. -/
def IonOp.opens_framebuffer_device : IonOp → Bool
  | .gralloc_device_open _ gpu0 => !gpu0
  | _ => false

/-- The module state together with the framebuffer-slice handles that are
live: returned by a successful allocation and not freed since. -/
structure FbState where
  module : private_module_t
  live : List private_handle_t
  deriving DecidableEq

/-- A successful framebuffer-slice allocation, or the free of a live handle. -/
inductive FbOp where
  | alloc (env : Sys) (size : Int) (usage : Nat)
  | free (env : Sys) (hnd : private_handle_t)

/-- One step of a sequence of successful framebuffer-slice allocations and of
frees of live handles; `none` when the operation is not of that kind (the
allocation fails, the handle is not live) or has no defined behaviour. -/
def fb_step (s : FbState) : FbOp → Option FbState
  | .alloc env size usage =>
    match gralloc_alloc_framebuffer_locked env s.module size usage with
    | none => none
    | some r =>
      if r.ret = 0 then
        match r.handle with
        | none => none
        | some hnd => some ⟨r.module, hnd :: s.live⟩
      else none
  | .free env hnd =>
    if hnd ∈ s.live then
      match gralloc_free env s.module (some hnd) with
      | none => none
      | some r => some ⟨r.module, s.live.erase hnd⟩
    else none

/-- A sequence of steps of `fb_step`. -/
def fb_run : List FbOp → FbState → Option FbState
  | [], s => some s
  | op :: rest, s =>
    match fb_step s op with
    | none => none
    | some s1 => fb_run rest s1

/-! ## Concrete inputs -/

/-- Outcomes in which every call succeeds. -/
def sample_sys : Sys :=
  { pixelAlign := 32, mapFrameBufferLocked := fun m => (0, m), dup := fun _ => 9,
    ion_open := 3, ion_open_errno := 0, ion_alloc := 0, ion_alloc_handle := 1,
    ion_share := 0, ion_share_fd := 4, ion_phys := 4096, ion_phys_errno := 0,
    ion_free := 0, ashmem_create_region := 5, ashmem_errno := 0, munmap := 0,
    fb_device_open := 0 }

/-- Outcomes in which the open of the contiguous-memory backend fails with
`errno = e` and every other call succeeds. -/
def open_fails_sys (e : Nat) : Sys :=
  { sample_sys with ion_open := -1, ion_open_errno := e }

/-- The result of a 640x480 `RGBA_8888` request without usage bits on
`sample_sys`: a shared-memory buffer of `640 * 480 * 4` bytes. -/
def sample_rgba_result : GrallocResult :=
  ⟨0, HAL_MODULE_INFO_SYM,
    some { private_handle_t.new 5 1228800 0 with
           usage := 0, format := .RGBA_8888, width := 640, height := 480 },
    some 640, [.ashmem_create_region 1228800]⟩

/-- A mapped framebuffer at address `0x40000000`. -/
def sample_framebuffer : private_handle_t :=
  { private_handle_t.new 7 0 (PRIV_FLAGS_USES_ION ||| PRIV_FLAGS_FRAMEBUFFER) with
    base := 0x40000000, phys := 0x90000000 }

/-- A module with the framebuffer mapped, `n` slots of `2048 * 640` bytes and
the slot bitmap `mask`. -/
def sample_module (n mask : Nat) : private_module_t :=
  { HAL_MODULE_INFO_SYM with
    framebuffer := some sample_framebuffer, numBuffers := n, bufferMask := mask,
    line_length := 2048, yres := 600 }

/-- Outcomes in which the read-back of the physical address yields zero while
`errno` is zero, every other call succeeding. -/
def phys_zero_sys : Sys := { sample_sys with ion_phys := 0, ion_phys_errno := 0 }

/-- A module with a live connection to the contiguous-memory backend. -/
def live_module : private_module_t := { HAL_MODULE_INFO_SYM with ion_master := 3 }

/-- A mapped framebuffer at address `0x7FFC0000`: with slots of `0x80000` bytes
its second slot starts at `0x80040000`, above the largest `int`. -/
def high_framebuffer : private_handle_t :=
  { private_handle_t.new 7 0 (PRIV_FLAGS_USES_ION ||| PRIV_FLAGS_FRAMEBUFFER) with
    base := 0x7FFC0000, phys := 0x1FFC0000 }

/-- A module with `high_framebuffer` mapped, `n` slots of `2048 * 256` bytes and
the slot bitmap `mask`. -/
def high_module (n mask : Nat) : private_module_t :=
  { HAL_MODULE_INFO_SYM with
    framebuffer := some high_framebuffer, numBuffers := n, bufferMask := mask,
    line_length := 2048, yres := 256 }

/-- The handle of slot 1 of the sample framebuffer. -/
def sample_slot_handle : private_handle_t :=
  { sample_framebuffer with base := 0x40000000 + 1310720 }

/-- A valid heap handle on contiguous memory, mapped at `0x50000000`. -/
def sample_ion_handle : private_handle_t :=
  { private_handle_t.new 4 8192 PRIV_FLAGS_USES_ION with
    base := 0x50000000, phys := 4096, handle := some 1 }

/-- The handle `gralloc_alloc_framebuffer_locked` builds on `sample_sys` for
slot `k` of `high_framebuffer` and a request of size 0. -/
def high_slice (k : Nat) : private_handle_t :=
  { private_handle_t.new 9 0 (PRIV_FLAGS_USES_ION ||| PRIV_FLAGS_FRAMEBUFFER) with
    base := toInt32 (0x7FFC0000 + k * 524288), offset := k * 524288,
    phys := 0x1FFC0000 + k * 524288 }

/-! ## Invariant of the slot bitmap -/

/-- The invariant of the slot bitmap, relative to the initial module `m0` with
the framebuffer `fb`: the framebuffer, the number of slots and the slot size
are those of `m0`; the bitmap has no bit at or above `numBuffers`; live handles
exist only below the width of the mask; the live handles have distinct bases;
every live handle is a valid framebuffer slice at a slot whose bit is set, its
base being the 32-bit `int` that line 170 stores; and every set bit is the
slot of a live handle. -/
def slot_invariant (m0 : private_module_t) (fb : private_handle_t) (s : FbState) : Prop :=
  s.module.framebuffer = some fb ∧
  s.module.numBuffers = m0.numBuffers ∧
  bufferSize s.module = bufferSize m0 ∧
  s.module.bufferMask < 2 ^ m0.numBuffers ∧
  (s.live = [] ∨ m0.numBuffers < 32) ∧
  (s.live.map (fun hnd => hnd.base)).Nodup ∧
  (∀ hnd, hnd ∈ s.live →
    hnd.magic = sMagic ∧ hnd.flags = PRIV_FLAGS_USES_ION ||| PRIV_FLAGS_FRAMEBUFFER ∧
    ∃ k : Nat, k < m0.numBuffers ∧ hnd.base = toInt32 (fb.base + k * bufferSize m0) ∧
      s.module.bufferMask.testBit k = true) ∧
  (∀ k : Nat, k < m0.numBuffers → s.module.bufferMask.testBit k = true →
    ∃ hnd, hnd ∈ s.live ∧ hnd.base = toInt32 (fb.base + k * bufferSize m0))

/-! ## Definitions that follow the specification's words -/

/-- The specification's chroma subsampling: the chroma plane is "half the luma
area" (divisor 2) for the three 4:2:2 formats and "a quarter of the luma area"
(divisor 4) for the three 4:2:0 formats. -/
def spec_chroma_divisor : PixelFormat → Int
  | .YCbCr_422_SP | .YCbCr_422_I | .YCbCr_422_P => 2
  | _ => 4

/-! ## Arithmetic of the conversions and of the alignment macros -/

theorem toSizeT_eq_self {x : Int} (h0 : 0 ≤ x) (h1 : x < 4294967296) : toSizeT x = x := by
  unfold toSizeT; omega

theorem toInt32_eq_self {x : Int} (h0 : -2147483648 ≤ x) (h1 : x < 2147483648) :
    toInt32 x = x := by
  unfold toInt32; omega

/-- An `int` sum whose left operand was converted before. -/
theorem toInt32_add_left (a b : Int) : toInt32 (toInt32 a + b) = toInt32 (a + b) := by
  unfold toInt32; omega

/-- An `int` sum of two converted operands. -/
theorem toInt32_add_both (a b : Int) : toInt32 (toInt32 a + toInt32 b) = toInt32 (a + b) := by
  unfold toInt32; omega

/-- The `int` difference between a converted address and its converted
base. -/
theorem toInt32_sub_base (a x : Int) : toInt32 (toInt32 (a + x) - toInt32 a) = toInt32 x := by
  unfold toInt32; omega

theorem roundUpTo_nonneg {a x : Int} (ha : 0 < a) (hx : -a < x) : 0 ≤ roundUpTo a x := by
  unfold roundUpTo
  have h := Int.ediv_nonneg (a := x + (a - 1)) (b := a) (by omega) (by omega)
  positivity

theorem roundUpTo_le {a x : Int} (ha : 0 < a) : roundUpTo a x ≤ x + (a - 1) := by
  unfold roundUpTo
  exact Int.ediv_mul_le _ (by omega)

theorem ALIGN_PIXEL_eq_roundUpTo {a x : Int} (ha : 0 < a) (h0 : -a < x)
    (h1 : x + a ≤ 2147483648) : toSizeT (ALIGN_PIXEL a x) = roundUpTo a x := by
  have hn := roundUpTo_nonneg ha h0
  have hl := roundUpTo_le (a := a) (x := x) ha
  have hi : toInt32 (x + (a - 1)) = x + (a - 1) := toInt32_eq_self (by omega) (by omega)
  unfold ALIGN_PIXEL
  rw [hi]
  show toSizeT (roundUpTo a x) = roundUpTo a x
  exact toSizeT_eq_self hn (by omega)

theorem ALIGN_PIXEL_64_eq_roundUpTo {x : Int} (h0 : -64 < x) (h1 : x ≤ 2147483584) :
    toSizeT (ALIGN_PIXEL_64 x) = roundUpTo 64 x := by
  unfold ALIGN_PIXEL_64 roundUpTo toSizeT toInt32; omega

/-- The luma size of an aligned area `4096 * P`. -/
theorem luma_size_of_area {aw ah P : Int} (hA : aw * ah = 4096 * P) (hP : 0 ≤ P)
    (hb : 4096 * P < 2147483648) :
    luma_size aw ah = roundUpTo 4096 (aw * ah) ∧ luma_size aw ah = 4096 * P := by
  unfold luma_size ALIGN_PIXEL_4096 roundUpTo toSizeT toInt32
  rw [hA]; omega

/-- The chroma size of an aligned area `4096 * P`, the widths being multiples
of 64. -/
theorem chroma_size_of_area {format : PixelFormat} {aw ah P : Int}
    (hf : isYUV format = true) (hA : aw * ah = 4096 * P) (hH : aw / 2 * ah = 2048 * P)
    (hP : 0 ≤ P)
    (hb : 4096 * P + 2 * roundUpTo 4096 (4096 * P / spec_chroma_divisor format)
            < 2147483648) :
    chroma_size format aw ah
      = some (2 * roundUpTo 4096 (aw * ah / spec_chroma_divisor format)) := by
  cases format <;> simp only [isYUV, Bool.false_eq_true] at hf <;>
    simp only [chroma_size, spec_chroma_divisor, Option.some.injEq] at hb ⊢ <;>
    unfold ALIGN_PIXEL_4096 roundUpTo toSizeT toInt32 at * <;>
    rw [hA] <;> (try rw [hH]) <;> omega

/-- The products of two 64-aligned lengths, as multiples of 4096 and 2048. -/
theorem aligned_area (w h : Int) :
    roundUpTo 64 w * roundUpTo 64 h = 4096 * ((w + 63) / 64 * ((h + 63) / 64)) ∧
    roundUpTo 64 w / 2 * roundUpTo 64 h = 2048 * ((w + 63) / 64 * ((h + 63) / 64)) := by
  have h2 : roundUpTo 64 w / 2 = (w + 63) / 64 * 32 := by unfold roundUpTo; omega
  refine ⟨?_, ?_⟩
  · unfold roundUpTo; ring_nf
  · rw [h2]; unfold roundUpTo; ring_nf

/-! ## Layout of the luma-chroma formats -/

/-- C1: for each of the six YUV formats and every width and height whose sizes
are computed without overflow, `gralloc_alloc` computes `alignedw` and
`alignedh` as `w` and `h` rounded up to a multiple of 64, the luma size as the
aligned area rounded up to a multiple of 4096, the chroma size as twice the
4096-rounded half (4:2:2) or quarter (4:2:0) of the aligned area, and hands
`luma + chroma` to the backend. -/
theorem yuv_layout (env : Sys) (m : private_module_t) (w h : Int) (format : PixelFormat)
    (usage : Nat) (hf : isYUV format = true)
    (hw0 : -64 < w) (hw1 : w ≤ 2147483584) (hh0 : -64 < h) (hh1 : h ≤ 2147483584)
    (hsz : roundUpTo 4096 (roundUpTo 64 w * roundUpTo 64 h)
            + 2 * roundUpTo 4096
                (roundUpTo 64 w * roundUpTo 64 h / spec_chroma_divisor format)
            < 2147483648) :
    luma_size (roundUpTo 64 w) (roundUpTo 64 h)
      = roundUpTo 4096 (roundUpTo 64 w * roundUpTo 64 h) ∧
    chroma_size format (roundUpTo 64 w) (roundUpTo 64 h)
      = some (2 * roundUpTo 4096
                (roundUpTo 64 w * roundUpTo 64 h / spec_chroma_divisor format)) ∧
    gralloc_layout env.pixelAlign w h format
      = some ⟨roundUpTo 64 w, roundUpTo 64 h,
              roundUpTo 4096 (roundUpTo 64 w * roundUpTo 64 h)
                + 2 * roundUpTo 4096
                    (roundUpTo 64 w * roundUpTo 64 h / spec_chroma_divisor format)⟩ ∧
    gralloc_alloc env m w h format usage true true
      = gralloc_alloc_tail env m
          ⟨roundUpTo 64 w, roundUpTo 64 h,
           roundUpTo 4096 (roundUpTo 64 w * roundUpTo 64 h)
             + 2 * roundUpTo 4096
                 (roundUpTo 64 w * roundUpTo 64 h / spec_chroma_divisor format)⟩
          format usage := by
  obtain ⟨hA, hH⟩ := aligned_area w h
  have hp : 0 ≤ (w + 63) / 64 := by omega
  have hq : 0 ≤ (h + 63) / 64 := by omega
  have hP : 0 ≤ (w + 63) / 64 * ((h + 63) / 64) := mul_nonneg hp hq
  have hr : roundUpTo 4096 (4096 * ((w + 63) / 64 * ((h + 63) / 64)))
      = 4096 * ((w + 63) / 64 * ((h + 63) / 64)) := by unfold roundUpTo; omega
  have hc0 : 0 ≤ roundUpTo 4096
      (4096 * ((w + 63) / 64 * ((h + 63) / 64)) / spec_chroma_divisor format) := by
    cases format <;> simp only [isYUV, Bool.false_eq_true] at hf <;>
      simp only [spec_chroma_divisor] <;> unfold roundUpTo <;> omega
  rw [hA] at hsz
  rw [hr] at hsz
  have hb : 4096 * ((w + 63) / 64 * ((h + 63) / 64)) < 2147483648 := by omega
  obtain ⟨hl1, hl2⟩ := luma_size_of_area hA hP hb
  have hc := chroma_size_of_area hf hA hH hP hsz
  have hlay : gralloc_layout env.pixelAlign w h format
      = some ⟨roundUpTo 64 w, roundUpTo 64 h,
              roundUpTo 4096 (roundUpTo 64 w * roundUpTo 64 h)
                + 2 * roundUpTo 4096
                    (roundUpTo 64 w * roundUpTo 64 h / spec_chroma_divisor format)⟩ := by
    unfold gralloc_layout
    simp only [hf, if_true, ALIGN_PIXEL_64_eq_roundUpTo hw0 hw1,
      ALIGN_PIXEL_64_eq_roundUpTo hh0 hh1, hc, hl1]
    rw [hA, hr]
    have e1 : toInt32 (4096 * ((w + 63) / 64 * ((h + 63) / 64))
        + 2 * roundUpTo 4096
            (4096 * ((w + 63) / 64 * ((h + 63) / 64)) / spec_chroma_divisor format))
        = 4096 * ((w + 63) / 64 * ((h + 63) / 64))
        + 2 * roundUpTo 4096
            (4096 * ((w + 63) / 64 * ((h + 63) / 64)) / spec_chroma_divisor format) :=
      toInt32_eq_self (by omega) (by omega)
    rw [e1, toSizeT_eq_self (by omega) (by omega)]
  refine ⟨hl1, hc, hlay, ?_⟩
  unfold gralloc_alloc
  simp only [Bool.not_true, Bool.or_self, Bool.false_eq_true, if_false, hlay]

/-- Witness of C1: the layout of a 320x240 `YV12` request. -/
theorem yuv_layout_witness :
    gralloc_layout 32 320 240 .YV12 = some ⟨320, 256, 81920 + 2 * 20480⟩ := by
  have h := (yuv_layout
    sample_sys
    HAL_MODULE_INFO_SYM 320 240 .YV12 0 rfl (by decide) (by decide) (by decide)
    (by decide) (by decide)).2.2.1
  exact h

/-! ## Layout of the packed formats -/

/-- C2: for each packed RGB format and every width and height whose sizes are
computed without overflow, `gralloc_alloc` computes
`size = alignedw * alignedh * bpp`, where `alignedw` and `alignedh` are `w` and
`h` rounded up to the alignment of `ALIGN_PIXEL`, and `bpp` is 4 for
`RGBA_8888`, `RGBX_8888` and `BGRA_8888`, 3 for `RGB_888` and 2 for `RGB_565`,
`RGBA_5551` and `RGBA_4444`; this size is handed to the backend. -/
theorem rgb_layout (env : Sys) (m : private_module_t) (w h : Int) (format : PixelFormat)
    (usage : Nat) (b : Int) (hb : bpp format = some b) (ha : 0 < env.pixelAlign)
    (hw0 : -env.pixelAlign < w) (hw1 : w + env.pixelAlign ≤ 2147483648)
    (hh0 : -env.pixelAlign < h) (hh1 : h + env.pixelAlign ≤ 2147483648)
    (hsz : roundUpTo env.pixelAlign w * roundUpTo env.pixelAlign h * b < 4294967296) :
    (bpp .RGBA_8888 = some 4 ∧ bpp .RGBX_8888 = some 4 ∧ bpp .BGRA_8888 = some 4 ∧
      bpp .RGB_888 = some 3 ∧
      bpp .RGB_565 = some 2 ∧ bpp .RGBA_5551 = some 2 ∧ bpp .RGBA_4444 = some 2) ∧
    gralloc_layout env.pixelAlign w h format
      = some ⟨roundUpTo env.pixelAlign w, roundUpTo env.pixelAlign h,
              roundUpTo env.pixelAlign w * roundUpTo env.pixelAlign h * b⟩ ∧
    gralloc_alloc env m w h format usage true true
      = gralloc_alloc_tail env m
          ⟨roundUpTo env.pixelAlign w, roundUpTo env.pixelAlign h,
           roundUpTo env.pixelAlign w * roundUpTo env.pixelAlign h * b⟩ format usage := by
  have hnw := roundUpTo_nonneg ha hw0
  have hnh := roundUpTo_nonneg ha hh0
  have hA : 0 ≤ roundUpTo env.pixelAlign w * roundUpTo env.pixelAlign h :=
    mul_nonneg hnw hnh
  have hny : isYUV format = false := by
    cases format <;> simp [bpp] at hb <;> rfl
  have hb2 : b = 4 ∨ b = 3 ∨ b = 2 := by
    cases format <;> simp [bpp] at hb <;> omega
  have hlay : gralloc_layout env.pixelAlign w h format
      = some ⟨roundUpTo env.pixelAlign w, roundUpTo env.pixelAlign h,
              roundUpTo env.pixelAlign w * roundUpTo env.pixelAlign h * b⟩ := by
    unfold gralloc_layout
    simp only [hny, Bool.false_eq_true, if_false, ALIGN_PIXEL_eq_roundUpTo ha hw0 hw1,
      ALIGN_PIXEL_eq_roundUpTo ha hh0 hh1, hb]
    have e1 : toSizeT (roundUpTo env.pixelAlign w * roundUpTo env.pixelAlign h)
        = roundUpTo env.pixelAlign w * roundUpTo env.pixelAlign h := by
      apply toSizeT_eq_self hA
      rcases hb2 with rfl | rfl | rfl <;> omega
    rw [e1, toSizeT_eq_self (by rcases hb2 with rfl | rfl | rfl <;> omega) hsz]
  refine ⟨by decide, hlay, ?_⟩
  unfold gralloc_alloc
  simp only [Bool.not_true, Bool.or_self, Bool.false_eq_true, if_false, hlay]

/-- Witness of C2: a 640x480 `RGBA_8888` request, with an alignment of 32
pixels, gets `size = align(640) * align(480) * 4`. -/
theorem rgb_layout_witness :
    gralloc_layout 32 640 480 .RGBA_8888 = some ⟨640, 480, 640 * 480 * 4⟩ := by
  have h := (rgb_layout
    sample_sys
    HAL_MODULE_INFO_SYM 640 480 .RGBA_8888 0 4 rfl (by decide) (by decide) (by decide)
    (by decide) (by decide) (by decide)).2.1
  exact h

/-! ## Rejected requests and completed handles -/

/-- C3: a request whose pixel format is none of the thirteen recognised
enumerators, or whose handle or stride output pointer is missing, makes
`gralloc_alloc` return `-EINVAL` with no call issued (neither the framebuffer
path nor the heap allocator is entered), the module state unchanged, and
nothing stored through the output pointers. -/
theorem alloc_rejects_invalid (env : Sys) (m : private_module_t) (w h : Int)
    (format : PixelFormat) (usage : Nat) (pHandle pStride : Bool)
    (hbad : (∃ code, format = .other code) ∨ pHandle = false ∨ pStride = false) :
    gralloc_alloc env m w h format usage pHandle pStride
      = some ⟨-EINVAL, m, none, none, []⟩ := by
  unfold gralloc_alloc
  rcases hbad with ⟨code, rfl⟩ | rfl | rfl
  · have hl : gralloc_layout env.pixelAlign w h (.other code) = none := by
      simp [gralloc_layout, isYUV, bpp]
    rw [hl]
    split <;> rfl
  · simp
  · simp

/-- Witness of C3: an unknown format code with a mapped framebuffer and
framebuffer usage is rejected before any backend is entered. -/
theorem alloc_rejects_invalid_witness :
    gralloc_alloc sample_sys (sample_module 2 0) 640 480 (.other 999)
        GRALLOC_USAGE_HW_FB true true
      = some ⟨-EINVAL, sample_module 2 0, none, none, []⟩ :=
  alloc_rejects_invalid sample_sys (sample_module 2 0) 640 480 (.other 999)
    GRALLOC_USAGE_HW_FB true true (Or.inl ⟨999, rfl⟩)

/-- C4: when `gralloc_alloc` returns 0, on whichever backend path, a layout was
computed, the stride stored is its aligned width, the handle stored carries
the aligned width and the aligned height (not the requested ones), and the
handle's format and usage are the ones the caller passed. The values are
stored in `int` variables; they are numerically equal to the aligned lengths
whenever these are below 2^31. -/
theorem alloc_success_fields (env : Sys) (m : private_module_t) (w h : Int)
    (format : PixelFormat) (usage : Nat) (pHandle pStride : Bool) (r : GrallocResult)
    (hr : gralloc_alloc env m w h format usage pHandle pStride = some r)
    (h0 : r.ret = 0) :
    ∃ L hnd, gralloc_layout env.pixelAlign w h format = some L ∧
      r.handle = some hnd ∧
      r.stride = some (toInt32 L.alignedw) ∧
      hnd.width = toInt32 L.alignedw ∧ hnd.height = toInt32 L.alignedh ∧
      hnd.format = format ∧ hnd.usage = usage ∧
      (L.alignedw < 2147483648 → r.stride = some L.alignedw ∧ hnd.width = L.alignedw) ∧
      (L.alignedh < 2147483648 → hnd.height = L.alignedh) := by
  have hEINVAL : (-EINVAL : Int) ≠ 0 := by decide
  unfold gralloc_alloc at hr
  split at hr
  · cases hr; exact absurd h0 hEINVAL
  · split at hr
    · cases hr; exact absurd h0 hEINVAL
    · rename_i L hL
      have hrange : 0 ≤ L.alignedw ∧ 0 ≤ L.alignedh := by
        have hL2 := hL
        unfold gralloc_layout at hL2
        simp only at hL2
        split at hL2
        · split at hL2
          · cases hL2
          · cases hL2
            exact ⟨Int.emod_nonneg _ (by decide), Int.emod_nonneg _ (by decide)⟩
        · split at hL2
          · cases hL2
          · cases hL2
            exact ⟨Int.emod_nonneg _ (by decide), Int.emod_nonneg _ (by decide)⟩
      unfold gralloc_alloc_tail at hr
      simp only at hr
      split at hr
      · cases hr
      · rename_i b hb
        split at hr
        · rename_i hneg
          cases hr
          simp only at h0
          omega
        · split at hr
          · cases hr
          · rename_i hnd hh
            cases hr
            refine ⟨L, _, hL, rfl, rfl, rfl, rfl, rfl, rfl, ?_, ?_⟩
            · intro hlt
              rw [toInt32_eq_self (by omega) hlt]
              exact ⟨rfl, rfl⟩
            · intro hlt
              exact toInt32_eq_self (by omega) hlt

/-- Witness of C4: a 640x480 `RGBA_8888` request served from shared memory. -/
theorem alloc_success_fields_witness :
    gralloc_alloc sample_sys HAL_MODULE_INFO_SYM 640 480 .RGBA_8888 0 true true
      = some sample_rgba_result ∧
    ∃ L hnd, gralloc_layout sample_sys.pixelAlign 640 480 .RGBA_8888 = some L ∧
      sample_rgba_result.handle = some hnd ∧
      sample_rgba_result.stride = some (toInt32 L.alignedw) ∧
      hnd.width = toInt32 L.alignedw ∧ hnd.height = toInt32 L.alignedh ∧
      hnd.format = .RGBA_8888 ∧ hnd.usage = 0 ∧
      (L.alignedw < 2147483648 →
        sample_rgba_result.stride = some L.alignedw ∧ hnd.width = L.alignedw) ∧
      (L.alignedh < 2147483648 → hnd.height = L.alignedh) :=
  ⟨by decide,
   alloc_success_fields sample_sys HAL_MODULE_INFO_SYM 640 480 .RGBA_8888 0 true true
    sample_rgba_result (by decide) rfl⟩

/-! ## The slot bitmap -/

/-- The test of line 163 reads bit `i` of the mask. -/
theorem and_one_shiftLeft_eq_zero (x i : Nat) :
    x &&& (1 <<< i) = 0 ↔ x.testBit i = false := by
  rw [Nat.one_shiftLeft]
  constructor
  · intro h
    have h2 : (x &&& 2 ^ i).testBit i = false := by rw [h]; simp
    simpa [Nat.testBit_and, Nat.testBit_two_pow_self] using h2
  · intro h
    apply Nat.eq_of_testBit_eq
    intro j
    rw [Nat.testBit_and, Nat.testBit_two_pow]
    by_cases hij : i = j
    · subst hij; simp [h]
    · simp [hij]

/-- First fit: when the bits `i .. i+d-1` of the mask are set and bit `i+d` is
clear, the loop of lines 162-168 started at `i` with more than `d` iterations
left claims bit `i+d` and advances the 32-bit address by `d` buffers. -/
theorem find_free_slot_first_fit (bufferMask : Nat) (bs : Int) :
    ∀ (d n i mask : Nat) (a : Int), d < n →
      (∀ j, i ≤ j → j < i + d → bufferMask.testBit j = true) →
      bufferMask.testBit (i + d) = false →
      find_free_slot bufferMask bs n i mask (toInt32 a)
        = (mask ||| (1 <<< (i + d)), toInt32 (a + d * bs)) := by
  intro d
  induction d with
  | zero =>
    intro n i mask a hn _ hclear
    obtain ⟨n', rfl⟩ : ∃ n', n = n' + 1 := ⟨n - 1, by omega⟩
    have hc : bufferMask &&& (1 <<< i) = 0 :=
      (and_one_shiftLeft_eq_zero bufferMask i).2 (by simpa using hclear)
    simp [find_free_slot, hc]
  | succ d ih =>
    intro n i mask a hn hset hclear
    obtain ⟨n', rfl⟩ : ∃ n', n = n' + 1 := ⟨n - 1, by omega⟩
    have hi : bufferMask.testBit i = true := hset i (Nat.le_refl i) (by omega)
    have hc : ¬ (bufferMask &&& (1 <<< i) = 0) := by
      rw [and_one_shiftLeft_eq_zero]; simp [hi]
    have hstep := ih n' (i + 1) mask (a + bs) (by omega)
      (fun j h1 h2 => hset j (by omega) (by omega))
      (by rw [show i + 1 + d = i + (d + 1) by omega]; exact hclear)
    simp only [find_free_slot, hc, if_false, toInt32_add_left, hstep]
    rw [show i + 1 + d = i + (d + 1) by omega]
    congr 2
    push_cast
    ring

/-- A mask below `2^n - 1` has a lowest clear bit below `n`. -/
theorem exists_lowest_clear_bit (mask n : Nat) (h : mask < 2 ^ n - 1) :
    ∃ d, d < n ∧ mask.testBit d = false ∧ ∀ j, j < d → mask.testBit j = true := by
  have hex : ∃ d, d < n ∧ mask.testBit d = false := by
    by_contra hno
    have hall : ∀ j, j < n → mask.testBit j = true := by
      intro j hj
      by_contra hb
      exact hno ⟨j, hj, by simpa using hb⟩
    have heq : mask = 2 ^ n - 1 := by
      apply Nat.eq_of_testBit_eq
      intro j
      rw [Nat.testBit_two_pow_sub_one]
      by_cases hj : j < n
      · simp [hj, hall j hj]
      · have hle : 2 ^ n ≤ 2 ^ j := Nat.pow_le_pow_right (by decide) (by omega)
        have hlt : mask < 2 ^ j := by omega
        simp [hj, Nat.testBit_lt_two_pow hlt]
    omega
  refine ⟨Nat.find hex, (Nat.find_spec hex).1, (Nat.find_spec hex).2, ?_⟩
  intro j hj
  have hmin := Nat.find_min hex hj
  by_contra hb
  exact hmin ⟨by have := (Nat.find_spec hex).1; omega, by simpa using hb⟩

/-- With the framebuffer mapped, the mapping step of lines 127-134 does
nothing. -/
theorem map_on_first_use_mapped (env : Sys) (m : private_module_t) (fb : private_handle_t)
    (hfb : m.framebuffer = some fb) : map_on_first_use env m = (0, m, []) := by
  simp [map_on_first_use, hfb]

/-- The handle of slot `i` of the framebuffer `fb`, as lines 157-172 build
it: its address fields are the 32-bit sums. -/
theorem slot_claim_at (env : Sys) (m : private_module_t) (size : Int) (usage : Nat)
    (fb : private_handle_t) (i : Nat) (hfb : m.framebuffer = some fb)
    (hn1 : m.numBuffers ≠ 1) (hn2 : m.numBuffers < 32)
    (hmask : m.bufferMask < 2 ^ m.numBuffers - 1) (hi : i < m.numBuffers)
    (hclear : m.bufferMask.testBit i = false)
    (hlow : ∀ j, j < i → m.bufferMask.testBit j = true) :
    gralloc_alloc_framebuffer_locked env m size usage
      = some ⟨0, { m with bufferMask := m.bufferMask ||| 2 ^ i },
              some { private_handle_t.new (env.dup fb.fd) size
                       (PRIV_FLAGS_USES_ION ||| PRIV_FLAGS_FRAMEBUFFER) with
                     base := toInt32 (fb.base + i * bufferSize m),
                     offset := toInt32 (i * bufferSize m),
                     phys := toInt32 (fb.phys + i * bufferSize m) },
              [.dup fb.fd]⟩ := by
  have hslot := find_free_slot_first_fit m.bufferMask (bufferSize m) i m.numBuffers 0
    m.bufferMask fb.base hi (fun j _ h2 => hlow j (by omega)) (by simpa using hclear)
  rw [Nat.zero_add, Nat.one_shiftLeft] at hslot
  have hguard : ¬ (m.bufferMask ≥ 2 ^ m.numBuffers - 1) := by omega
  have h32 : ¬ (32 ≤ m.numBuffers) := by omega
  unfold gralloc_alloc_framebuffer_locked
  simp only [map_on_first_use_mapped env m fb hfb, hfb, hn1, h32, Nat.one_shiftLeft,
    hguard, if_false, hslot, List.nil_append, toInt32_sub_base, toInt32_add_both]
  simp

/-- Setting bit `k` on top of the `k` low bits gives the `k+1` low bits. -/
theorem low_bits_or_next (k : Nat) : (2 ^ k - 1) ||| 2 ^ k = 2 ^ (k + 1) - 1 := by
  apply Nat.eq_of_testBit_eq
  intro j
  rw [Nat.testBit_or, Nat.testBit_two_pow_sub_one, Nat.testBit_two_pow_sub_one,
    Nat.testBit_two_pow]
  by_cases h1 : j < k
  · have h2 : j < k + 1 := by omega
    simp [h1, h2]
  · by_cases h3 : k = j
    · subst h3; simp
    · have h2 : ¬ j < k + 1 := by omega
      simp [h1, h2, h3]

/-- One allocation on a module whose `k` low slots are claimed, `k` below the
number of slots: slot `k` is claimed. -/
theorem slot_claim_low_bits (env : Sys) (m : private_module_t) (size : Int) (usage : Nat)
    (fb : private_handle_t) (k : Nat) (hfb : m.framebuffer = some fb)
    (hn1 : m.numBuffers ≠ 1) (hn2 : m.numBuffers < 32) (hk : k < m.numBuffers) :
    gralloc_alloc_framebuffer_locked env { m with bufferMask := 2 ^ k - 1 } size usage
      = some ⟨0, { m with bufferMask := 2 ^ (k + 1) - 1 },
              some { private_handle_t.new (env.dup fb.fd) size
                       (PRIV_FLAGS_USES_ION ||| PRIV_FLAGS_FRAMEBUFFER) with
                     base := toInt32 (fb.base + k * bufferSize m),
                     offset := toInt32 (k * bufferSize m),
                     phys := toInt32 (fb.phys + k * bufferSize m) },
              [.dup fb.fd]⟩ := by
  have hpow : 2 ^ k < 2 ^ m.numBuffers := Nat.pow_lt_pow_right (by decide) hk
  have hpos : 0 < 2 ^ k := Nat.pow_pos (by decide)
  have h := slot_claim_at env { m with bufferMask := 2 ^ k - 1 } size usage fb k hfb hn1 hn2
    (by show 2 ^ k - 1 < 2 ^ m.numBuffers - 1; omega) hk
    (by show (2 ^ k - 1).testBit k = false; simp)
    (by intro j hj; show (2 ^ k - 1).testBit j = true; simp [hj])
  rw [h]
  simp only [low_bits_or_next]
  rfl

/-- The state before the `k`-th of a run of allocations that starts from an
empty bitmap has the `k` low bits set, for every `k` up to the number of
slots. -/
theorem framebuffer_alloc_run_low_bits (env : Nat → Sys) (size : Nat → Int)
    (usage : Nat → Nat) (m : private_module_t) (fb : private_handle_t)
    (hfb : m.framebuffer = some fb) (hn1 : m.numBuffers ≠ 1) (hn2 : m.numBuffers < 32)
    (hzero : m.bufferMask = 0) :
    ∀ k, k ≤ m.numBuffers →
      framebuffer_alloc_run env size usage m k = some { m with bufferMask := 2 ^ k - 1 } := by
  intro k
  induction k with
  | zero =>
    intro _
    cases m
    simp only at hzero
    subst hzero
    rfl
  | succ k ih =>
    intro hk
    simp only [framebuffer_alloc_run, ih (by omega),
      slot_claim_low_bits (env k) m (size k) (usage k) fb k hfb hn1 hn2 (by omega)]

/-- With the framebuffer mapped and more than one slot, a bitmap at or above
`2^numBuffers - 1` makes the allocation fail with `-ENOMEM` (lines 150-153)
and changes nothing. -/
theorem slots_exhausted (env : Sys) (m : private_module_t) (size : Int) (usage : Nat)
    (fb : private_handle_t) (hfb : m.framebuffer = some fb) (hn1 : m.numBuffers ≠ 1)
    (hn2 : m.numBuffers < 32) (hfull : 2 ^ m.numBuffers - 1 ≤ m.bufferMask) :
    gralloc_alloc_framebuffer_locked env m size usage = some ⟨-ENOMEM, m, none, []⟩ := by
  have h32 : ¬ (32 ≤ m.numBuffers) := by omega
  have hge : m.bufferMask ≥ 2 ^ m.numBuffers - 1 := hfull
  unfold gralloc_alloc_framebuffer_locked
  simp only [map_on_first_use_mapped env m fb hfb, hn1, h32, Nat.one_shiftLeft, hge,
    if_false, if_true]
  simp

/-- C5: with the framebuffer mapped, `numBuffers = N`, `1 < N < 32` and an
empty bitmap, the `k`-th of `N` successive framebuffer allocations (`k` from 0
to `N-1`) returns 0 and claims slot `k` (it sets bit `k` only, and its handle
lies `k` buffers above the framebuffer base, the address being the 32-bit sum
the code computes); after them the bitmap has exactly the `N` low bits set; the
next allocation returns `-ENOMEM` and leaves the module state unchanged. -/
theorem sequential_framebuffer_allocations (N : Nat) (env : Nat → Sys) (size : Nat → Int)
    (usage : Nat → Nat) (m : private_module_t) (fb : private_handle_t)
    (hN1 : 1 < N) (hN2 : N < 32) (hfb : m.framebuffer = some fb)
    (hnum : m.numBuffers = N) (hzero : m.bufferMask = 0) :
    (∀ k, k < N →
      framebuffer_alloc_run env size usage m k = some { m with bufferMask := 2 ^ k - 1 } ∧
      gralloc_alloc_framebuffer_locked (env k) { m with bufferMask := 2 ^ k - 1 }
          (size k) (usage k)
        = some ⟨0, { m with bufferMask := 2 ^ (k + 1) - 1 },
                some { private_handle_t.new ((env k).dup fb.fd) (size k)
                         (PRIV_FLAGS_USES_ION ||| PRIV_FLAGS_FRAMEBUFFER) with
                       base := toInt32 (fb.base + k * bufferSize m),
                       offset := toInt32 (k * bufferSize m),
                       phys := toInt32 (fb.phys + k * bufferSize m) },
                [.dup fb.fd]⟩ ∧
      (∀ j, (2 ^ (k + 1) - 1).testBit j = ((2 ^ k - 1).testBit j || decide (j = k)))) ∧
    framebuffer_alloc_run env size usage m N = some { m with bufferMask := 2 ^ N - 1 } ∧
    (∀ j, (2 ^ N - 1).testBit j = decide (j < N)) ∧
    gralloc_alloc_framebuffer_locked (env N) { m with bufferMask := 2 ^ N - 1 }
        (size N) (usage N)
      = some ⟨-ENOMEM, { m with bufferMask := 2 ^ N - 1 }, none, []⟩ := by
  have hn1 : m.numBuffers ≠ 1 := by omega
  have hn2 : m.numBuffers < 32 := by omega
  have hrun := framebuffer_alloc_run_low_bits env size usage m fb hfb hn1 hn2 hzero
  refine ⟨?_, hrun N (by omega), fun j => Nat.testBit_two_pow_sub_one N j, ?_⟩
  · intro k hk
    refine ⟨hrun k (by omega), ?_, ?_⟩
    · exact slot_claim_low_bits (env k) m (size k) (usage k) fb k hfb hn1 hn2 (by omega)
    · intro j
      rw [← low_bits_or_next, Nat.testBit_or, Nat.testBit_two_pow]
      by_cases hkj : k = j
      · subst hkj; simp
      · have hjk : ¬ j = k := fun h => hkj h.symm
        simp [hkj, hjk]
  · subst hnum
    exact slots_exhausted (env m.numBuffers) { m with bufferMask := 2 ^ m.numBuffers - 1 }
      (size m.numBuffers) (usage m.numBuffers) fb hfb hn1 hn2 (Nat.le_refl _)

/-- Witness of C5: three slots on the sample module. -/
theorem sequential_framebuffer_allocations_witness :
    framebuffer_alloc_run (fun _ => sample_sys) (fun _ => 0) (fun _ => GRALLOC_USAGE_HW_FB)
        (sample_module 3 0) 3
      = some { sample_module 3 0 with bufferMask := 2 ^ 3 - 1 } ∧
    gralloc_alloc_framebuffer_locked sample_sys
        { sample_module 3 0 with bufferMask := 2 ^ 3 - 1 } 0 GRALLOC_USAGE_HW_FB
      = some ⟨-ENOMEM, { sample_module 3 0 with bufferMask := 2 ^ 3 - 1 }, none, []⟩ :=
  have h := sequential_framebuffer_allocations 3 (fun _ => sample_sys) (fun _ => 0)
    (fun _ => GRALLOC_USAGE_HW_FB) (sample_module 3 0) sample_framebuffer
    (by decide) (by decide) rfl rfl rfl
  ⟨h.2.1, h.2.2.2⟩

/-- A bitmap with a clear bit below `n` and no bit at or above `n` is below
`2^n - 1`. -/
theorem mask_below_full (mask n : Nat) (hfree : ∃ i, i < n ∧ mask.testBit i = false)
    (hinv : ∀ j, n ≤ j → mask.testBit j = false) : mask < 2 ^ n - 1 := by
  have hlt : mask < 2 ^ n := Nat.lt_pow_two_of_testBit mask (fun j hj => hinv j hj)
  have hne : mask ≠ 2 ^ n - 1 := by
    intro he
    obtain ⟨i, hi, hb⟩ := hfree
    rw [he, Nat.testBit_two_pow_sub_one] at hb
    simp [hi] at hb
  omega

/-- C6: for every module state with the framebuffer mapped, `numBuffers > 1`
(below the 32 bits of the mask, where the shift of line 150 is defined), and a
`bufferMask` in which not all `numBuffers` low bits are set and, as in every
state the allocator produces, no bit at or above `numBuffers` is set,
`gralloc_alloc_framebuffer_locked` returns 0, claims the lowest index
`i < numBuffers` whose bit is clear (it sets that bit and changes no other),
and stores a handle with `base = framebuffer.base + i * bufferSize`,
`offset = i * bufferSize`, `phys = framebuffer.phys + i * bufferSize`, each
computed in 32-bit `int` arithmetic as lines 167-172 do (hence equal to the
plain sum whenever that sum is an `int`), and `flags = USES_ION | FRAMEBUFFER`,
where `bufferSize = line_length * ALIGN_PIXEL_128(yres)`. -/
theorem first_fit_slot (env : Sys) (m : private_module_t) (size : Int) (usage : Nat)
    (fb : private_handle_t) (hfb : m.framebuffer = some fb)
    (hn1 : 1 < m.numBuffers) (hn2 : m.numBuffers < 32)
    (hfree : ∃ i, i < m.numBuffers ∧ m.bufferMask.testBit i = false)
    (hinv : ∀ j, m.numBuffers ≤ j → m.bufferMask.testBit j = false) :
    ∃ i hnd, i < m.numBuffers ∧ m.bufferMask.testBit i = false ∧
      (∀ j, j < i → m.bufferMask.testBit j = true) ∧
      gralloc_alloc_framebuffer_locked env m size usage
        = some ⟨0, { m with bufferMask := m.bufferMask ||| 2 ^ i }, some hnd,
                [.dup fb.fd]⟩ ∧
      (∀ j, (m.bufferMask ||| 2 ^ i).testBit j
              = (m.bufferMask.testBit j || decide (j = i))) ∧
      hnd.base = toInt32 (fb.base + i * bufferSize m) ∧
      hnd.offset = toInt32 (i * bufferSize m) ∧
      hnd.phys = toInt32 (fb.phys + i * bufferSize m) ∧
      (-2147483648 ≤ fb.base + i * bufferSize m → fb.base + i * bufferSize m < 2147483648 →
        hnd.base = fb.base + i * bufferSize m) ∧
      (i * bufferSize m < 2147483648 → hnd.offset = i * bufferSize m) ∧
      (-2147483648 ≤ fb.phys + i * bufferSize m → fb.phys + i * bufferSize m < 2147483648 →
        hnd.phys = fb.phys + i * bufferSize m) ∧
      hnd.flags = PRIV_FLAGS_USES_ION ||| PRIV_FLAGS_FRAMEBUFFER ∧
      bufferSize m = toSizeT (m.line_length * ALIGN_PIXEL_128 m.yres) := by
  have hmask := mask_below_full m.bufferMask m.numBuffers hfree hinv
  obtain ⟨i, hi, hclear, hlow⟩ := exists_lowest_clear_bit m.bufferMask m.numBuffers hmask
  have hbs0 : 0 ≤ bufferSize m := Int.emod_nonneg _ (by decide)
  have hoff0 : (0 : Int) ≤ i * bufferSize m := mul_nonneg (by omega) hbs0
  refine ⟨i, _, hi, hclear, hlow,
    slot_claim_at env m size usage fb i hfb (by omega) hn2 hmask hi hclear hlow,
    ?_, rfl, rfl, rfl, ?_, ?_, ?_, rfl, rfl⟩
  · intro j
    rw [Nat.testBit_or, Nat.testBit_two_pow]
    by_cases hij : i = j
    · subst hij; simp
    · have hji : ¬ j = i := fun h => hij h.symm
      simp [hij, hji]
  · intro h0 h1
    exact toInt32_eq_self h0 h1
  · intro h1
    exact toInt32_eq_self (by omega) h1
  · intro h0 h1
    exact toInt32_eq_self h0 h1

/-- Witness of C6: two slots of `0x80000` bytes at `0x7FFC0000` with slot 0
claimed; slot 1 is claimed, and its base `0x80040000` is stored as the `int`
`-2147221504`. -/
theorem first_fit_slot_witness :
    gralloc_alloc_framebuffer_locked sample_sys (high_module 2 1) 0 GRALLOC_USAGE_HW_FB
      = some ⟨0, high_module 2 3,
              some { private_handle_t.new 9 0
                       (PRIV_FLAGS_USES_ION ||| PRIV_FLAGS_FRAMEBUFFER) with
                     base := -2147221504, offset := 524288, phys := 537133056 },
              [.dup 7]⟩ ∧
    ∃ i hnd, i < (high_module 2 1).numBuffers ∧
      (high_module 2 1).bufferMask.testBit i = false ∧
      (∀ j, j < i → (high_module 2 1).bufferMask.testBit j = true) ∧
      gralloc_alloc_framebuffer_locked sample_sys (high_module 2 1) 0 GRALLOC_USAGE_HW_FB
        = some ⟨0, { high_module 2 1 with
                     bufferMask := (high_module 2 1).bufferMask ||| 2 ^ i }, some hnd,
                [.dup high_framebuffer.fd]⟩ ∧
      (∀ j, ((high_module 2 1).bufferMask ||| 2 ^ i).testBit j
              = ((high_module 2 1).bufferMask.testBit j || decide (j = i))) ∧
      hnd.base = toInt32 (high_framebuffer.base + i * bufferSize (high_module 2 1)) ∧
      hnd.offset = toInt32 (i * bufferSize (high_module 2 1)) ∧
      hnd.phys = toInt32 (high_framebuffer.phys + i * bufferSize (high_module 2 1)) ∧
      (-2147483648 ≤ high_framebuffer.base + i * bufferSize (high_module 2 1) →
        high_framebuffer.base + i * bufferSize (high_module 2 1) < 2147483648 →
        hnd.base = high_framebuffer.base + i * bufferSize (high_module 2 1)) ∧
      (i * bufferSize (high_module 2 1) < 2147483648 →
        hnd.offset = i * bufferSize (high_module 2 1)) ∧
      (-2147483648 ≤ high_framebuffer.phys + i * bufferSize (high_module 2 1) →
        high_framebuffer.phys + i * bufferSize (high_module 2 1) < 2147483648 →
        hnd.phys = high_framebuffer.phys + i * bufferSize (high_module 2 1)) ∧
      hnd.flags = PRIV_FLAGS_USES_ION ||| PRIV_FLAGS_FRAMEBUFFER ∧
      bufferSize (high_module 2 1)
        = toSizeT ((high_module 2 1).line_length
                    * ALIGN_PIXEL_128 (high_module 2 1).yres) :=
  ⟨by decide,
   first_fit_slot sample_sys (high_module 2 1) 0 GRALLOC_USAGE_HW_FB high_framebuffer
    rfl (by decide) (by decide) ⟨1, by decide, by decide⟩
    (fun j hj => Nat.testBit_lt_two_pow
      (Nat.lt_of_lt_of_le (show (high_module 2 1).bufferMask < 2 ^ 2 by decide)
        (Nat.pow_le_pow_right (by decide) hj)))⟩

/-! ## The heap allocator and the single-slot fallback -/

/-- The connection manager changes no field of the module but `ion_master`. -/
theorem init_ion_area_bufferMask (env : Sys) (m : private_module_t) :
    (init_ion_area env m).module.bufferMask = m.bufferMask := by
  unfold init_ion_area init_ion_area_locked
  simp only
  split_ifs <;> rfl

/-- Lines 300-316 leave the module as it is. -/
theorem alloc_buffer_finish_module (m : private_module_t) (err fd size : Int) (flags : Nat)
    (bh : Option Int) (t : List Call) :
    (alloc_buffer_finish m err fd size flags bh t).module = m := by
  unfold alloc_buffer_finish
  split_ifs <;> rfl

/-- A handle built by lines 300-316 carries the accumulated flags. -/
theorem alloc_buffer_finish_flags (m : private_module_t) (err fd size : Int) (flags : Nat)
    (bh : Option Int) (t : List Call) (hnd : private_handle_t)
    (h : (alloc_buffer_finish m err fd size flags bh t).handle = some hnd) :
    hnd.flags = flags := by
  unfold alloc_buffer_finish at h
  simp only at h
  split_ifs at h <;> (simp only [Option.some.injEq] at h; subst h; rfl)

/-- The heap allocator never touches the slot bitmap. -/
theorem alloc_buffer_bufferMask (env : Sys) (m : private_module_t) (size : Int)
    (usage : Nat) : (gralloc_alloc_buffer env m size usage).module.bufferMask = m.bufferMask := by
  have h := init_ion_area_bufferMask env m
  unfold gralloc_alloc_buffer try_ashmem
  simp only
  split_ifs <;> simp only [alloc_buffer_finish_module, h]

/-- A handle built by the heap allocator never carries the framebuffer-slice
flag. -/
theorem alloc_buffer_not_framebuffer (env : Sys) (m : private_module_t) (size : Int)
    (usage : Nat) (hnd : private_handle_t)
    (h : (gralloc_alloc_buffer env m size usage).handle = some hnd) :
    hnd.flags &&& PRIV_FLAGS_FRAMEBUFFER = 0 := by
  unfold gralloc_alloc_buffer try_ashmem at h
  simp only at h
  split_ifs at h <;> (rw [alloc_buffer_finish_flags _ _ _ _ _ _ _ hnd h]; decide)

/-- The usage of line 143 has the framebuffer bit cleared, the 2D bit set and
every other bit of the 32-bit word unchanged. -/
theorem single_buffer_usage (usage : Nat) :
    ((usage &&& (0xFFFFFFFF ^^^ GRALLOC_USAGE_HW_FB)) ||| GRALLOC_USAGE_HW_2D)
        &&& GRALLOC_USAGE_HW_FB = 0 ∧
    ((usage &&& (0xFFFFFFFF ^^^ GRALLOC_USAGE_HW_FB)) ||| GRALLOC_USAGE_HW_2D)
        &&& GRALLOC_USAGE_HW_2D = GRALLOC_USAGE_HW_2D ∧
    ∀ j, j < 32 → j ≠ 12 → j ≠ 10 →
      ((usage &&& (0xFFFFFFFF ^^^ GRALLOC_USAGE_HW_FB)) ||| GRALLOC_USAGE_HW_2D).testBit j
        = usage.testBit j := by
  have e1 : (0xFFFFFFFF : Nat) = 2 ^ 32 - 1 := by norm_num
  have e2 : GRALLOC_USAGE_HW_FB = 2 ^ 12 := by norm_num [GRALLOC_USAGE_HW_FB]
  have e3 : GRALLOC_USAGE_HW_2D = 2 ^ 10 := by norm_num [GRALLOC_USAGE_HW_2D]
  rw [e1, e2, e3]
  refine ⟨?_, ?_, ?_⟩
  · apply Nat.eq_of_testBit_eq
    intro j
    simp only [Nat.testBit_and, Nat.testBit_or, Nat.testBit_xor, Nat.testBit_two_pow,
      Nat.testBit_two_pow_sub_one, Nat.zero_testBit]
    by_cases h : 12 = j
    · subst h; simp
    · simp [h]
  · apply Nat.eq_of_testBit_eq
    intro j
    simp only [Nat.testBit_and, Nat.testBit_or, Nat.testBit_xor, Nat.testBit_two_pow,
      Nat.testBit_two_pow_sub_one, Nat.zero_testBit]
    by_cases h : 10 = j
    · subst h; simp
    · simp [h]
  · intro j hj h1 h2
    simp only [Nat.testBit_and, Nat.testBit_or, Nat.testBit_xor, Nat.testBit_two_pow,
      Nat.testBit_two_pow_sub_one, Nat.zero_testBit]
    have h3 : ¬ 12 = j := fun h => h1 h.symm
    have h4 : ¬ 10 = j := fun h => h2 h.symm
    simp [hj, h3, h4]

/-- C7: when the module has a single slot (`numBuffers = 1` once the mapping
step of lines 127-134 has passed, which does nothing on a mapped framebuffer),
`gralloc_alloc_framebuffer_locked` releases the lock, delegates to
`gralloc_alloc_buffer` with the size `bufferSize` and the usage
`(usage & ~HW_FB) | HW_2D`, takes the lock again and returns the heap
allocator's result; the slot bitmap is unchanged, the delegated usage has the
framebuffer bit clear and the 2D bit set, and any handle returned does not
carry the framebuffer-slice flag. -/
theorem single_buffer_fallback (env : Sys) (m : private_module_t) (size : Int)
    (usage : Nat) (hok : 0 ≤ (map_on_first_use env m).1)
    (hone : (map_on_first_use env m).2.1.numBuffers = 1) :
    gralloc_alloc_framebuffer_locked env m size usage
      = some { gralloc_alloc_buffer env (map_on_first_use env m).2.1
                 (bufferSize (map_on_first_use env m).2.1)
                 ((usage &&& (0xFFFFFFFF ^^^ GRALLOC_USAGE_HW_FB)) ||| GRALLOC_USAGE_HW_2D)
               with trace := (map_on_first_use env m).2.2 ++ [.unlock]
                 ++ (gralloc_alloc_buffer env (map_on_first_use env m).2.1
                       (bufferSize (map_on_first_use env m).2.1)
                       ((usage &&& (0xFFFFFFFF ^^^ GRALLOC_USAGE_HW_FB))
                          ||| GRALLOC_USAGE_HW_2D)).trace
                 ++ [.lock] } ∧
    (∀ fb, m.framebuffer = some fb → map_on_first_use env m = (0, m, [])) ∧
    (∀ r, gralloc_alloc_framebuffer_locked env m size usage = some r →
      r.module.bufferMask = (map_on_first_use env m).2.1.bufferMask ∧
      (∀ fb, m.framebuffer = some fb → r.module.bufferMask = m.bufferMask) ∧
      ∀ hnd, r.handle = some hnd → hnd.flags &&& PRIV_FLAGS_FRAMEBUFFER = 0) ∧
    ((usage &&& (0xFFFFFFFF ^^^ GRALLOC_USAGE_HW_FB)) ||| GRALLOC_USAGE_HW_2D)
        &&& GRALLOC_USAGE_HW_FB = 0 ∧
    ((usage &&& (0xFFFFFFFF ^^^ GRALLOC_USAGE_HW_FB)) ||| GRALLOC_USAGE_HW_2D)
        &&& GRALLOC_USAGE_HW_2D = GRALLOC_USAGE_HW_2D := by
  have hnot : ¬ (map_on_first_use env m).1 < 0 := by omega
  have hcall : gralloc_alloc_framebuffer_locked env m size usage
      = some { gralloc_alloc_buffer env (map_on_first_use env m).2.1
                 (bufferSize (map_on_first_use env m).2.1)
                 ((usage &&& (0xFFFFFFFF ^^^ GRALLOC_USAGE_HW_FB)) ||| GRALLOC_USAGE_HW_2D)
               with trace := (map_on_first_use env m).2.2 ++ [.unlock]
                 ++ (gralloc_alloc_buffer env (map_on_first_use env m).2.1
                       (bufferSize (map_on_first_use env m).2.1)
                       ((usage &&& (0xFFFFFFFF ^^^ GRALLOC_USAGE_HW_FB))
                          ||| GRALLOC_USAGE_HW_2D)).trace
                 ++ [.lock] } := by
    unfold gralloc_alloc_framebuffer_locked
    simp only [hnot, hone, if_false, if_true]
  refine ⟨hcall, fun fb hfb => map_on_first_use_mapped env m fb hfb, ?_,
    (single_buffer_usage usage).1, (single_buffer_usage usage).2.1⟩
  intro r hr
  rw [hcall] at hr
  cases hr
  refine ⟨alloc_buffer_bufferMask _ _ _ _, ?_, ?_⟩
  · intro fb hfb
    have hm := map_on_first_use_mapped env m fb hfb
    show (gralloc_alloc_buffer env (map_on_first_use env m).2.1 _ _).module.bufferMask = _
    rw [alloc_buffer_bufferMask, hm]
  · intro hnd hh
    exact alloc_buffer_not_framebuffer _ _ _ _ hnd hh

/-- Witness of C7: one slot on the sample module. -/
theorem single_buffer_fallback_witness :
    (gralloc_alloc_framebuffer_locked sample_sys (sample_module 1 0) 0
        GRALLOC_USAGE_HW_FB).map (fun r => (r.ret, r.module.bufferMask, r.trace))
      = some (0, 0, [.unlock, .lock, .ion_open, .unlock, .ion_alloc 3 1310720,
                     .ion_share 3, .ion_phys 3, .ion_free 3, .lock]) ∧
    ((GRALLOC_USAGE_HW_FB &&& (0xFFFFFFFF ^^^ GRALLOC_USAGE_HW_FB)) ||| GRALLOC_USAGE_HW_2D)
        &&& GRALLOC_USAGE_HW_FB = 0 :=
  ⟨by decide,
   (single_buffer_fallback sample_sys (sample_module 1 0) 0 GRALLOC_USAGE_HW_FB
     (by decide) (by decide)).2.2.2.1⟩

/-! ## Freeing a framebuffer slice -/

/-- Clearing bit `k` of a 32-bit mask with `&= ~(1 << k)`: bit `k` is cleared
and every other bit keeps its value. -/
theorem clear_bit_testBit (mask k : Nat) (hmask : mask < 2 ^ 32) (j : Nat) :
    (mask &&& (0xFFFFFFFF ^^^ (1 <<< k))).testBit j
      = (mask.testBit j && !decide (j = k)) := by
  have e1 : (0xFFFFFFFF : Nat) = 2 ^ 32 - 1 := by norm_num
  rw [e1, Nat.one_shiftLeft, Nat.testBit_and, Nat.testBit_xor, Nat.testBit_two_pow_sub_one,
    Nat.testBit_two_pow]
  by_cases hj : j < 32
  · by_cases hk : k = j
    · subst hk; simp [hj]
    · have hjk : ¬ j = k := fun h => hk h.symm
      simp [hj, hk, hjk]
  · have hle : 2 ^ 32 ≤ 2 ^ j := Nat.pow_le_pow_right (by decide) (by omega)
    have hlt : mask < 2 ^ j := by omega
    simp [Nat.testBit_lt_two_pow hlt]

/-- C8: for a valid handle carrying the framebuffer-slice flag, a mapped
framebuffer and `bufferSize > 0`, `gralloc_free` returns 0 and clears in
`bufferMask` exactly the bit whose index is
`(handle.base - framebuffer.base) / bufferSize` as line 416 computes it (an
index of the 32-bit mask), leaving every other bit and every other field of the
module unchanged; for a handle at or above the framebuffer base this index is
the mathematical quotient. -/
theorem free_framebuffer_slice (env : Sys) (m : private_module_t)
    (hnd fb : private_handle_t)
    (hvalid : ¬ private_handle_t.validate (some hnd) < 0)
    (hflag : hnd.flags &&& PRIV_FLAGS_FRAMEBUFFER ≠ 0)
    (hfb : m.framebuffer = some fb) (hbs : 0 < bufferSize m)
    (hmask : m.bufferMask < 2 ^ 32)
    (hidx : toSizeT (toInt32 (hnd.base - fb.base)) / bufferSize m < 32) :
    gralloc_free env m (some hnd)
      = some ⟨0, { m with bufferMask := m.bufferMask &&& (0xFFFFFFFF ^^^
                     (1 <<< (toSizeT (toInt32 (hnd.base - fb.base)) / bufferSize m).toNat)) },
              [.close hnd.fd]⟩ ∧
    (∀ j, (m.bufferMask &&& (0xFFFFFFFF ^^^
            (1 <<< (toSizeT (toInt32 (hnd.base - fb.base)) / bufferSize m).toNat))).testBit j
        = (m.bufferMask.testBit j &&
            !decide (j = (toSizeT (toInt32 (hnd.base - fb.base)) / bufferSize m).toNat))) ∧
    (fb.base ≤ hnd.base → hnd.base - fb.base < 4294967296 →
      toSizeT (toInt32 (hnd.base - fb.base)) / bufferSize m
        = (hnd.base - fb.base) / bufferSize m) := by
  have hq0 : 0 ≤ toSizeT (toInt32 (hnd.base - fb.base)) / bufferSize m :=
    Int.ediv_nonneg (Int.emod_nonneg _ (by decide)) (le_of_lt hbs)
  have hq : toInt32 (toSizeT (toInt32 (hnd.base - fb.base)) / bufferSize m)
      = toSizeT (toInt32 (hnd.base - fb.base)) / bufferSize m :=
    toInt32_eq_self (by omega) (by omega)
  have hbs0 : ¬ bufferSize m = 0 := by omega
  have hrange : ¬ (toSizeT (toInt32 (hnd.base - fb.base)) / bufferSize m < 0
      ∨ 32 ≤ toSizeT (toInt32 (hnd.base - fb.base)) / bufferSize m) := by omega
  refine ⟨?_, fun j => clear_bit_testBit _ _ hmask j, ?_⟩
  · unfold gralloc_free
    simp only [hvalid, hflag, hfb, hbs0, hq, hrange, if_false, if_true, ne_eq,
      not_false_eq_true]
  · intro h0 h1
    have e : toSizeT (toInt32 (hnd.base - fb.base)) = hnd.base - fb.base := by
      unfold toSizeT toInt32; omega
    rw [e]

/-- Witness of C8: freeing the handle of slot 1 of three claimed slots leaves
the bitmap `0b101`. -/
theorem free_framebuffer_slice_witness :
    gralloc_free sample_sys (sample_module 3 7)
        (some { sample_framebuffer with base := 0x40000000 + 1310720 })
      = some ⟨0, { sample_module 3 7 with bufferMask := 5 }, [.close 7]⟩ :=
  (free_framebuffer_slice sample_sys (sample_module 3 7)
    { sample_framebuffer with base := 0x40000000 + 1310720 } sample_framebuffer
    (by decide) (by decide) rfl (by decide) (by decide) (by decide)).1

/-! ## Connection failure in the heap allocator -/

/-- A failure reported by the connection manager is a negative code, and the
connection manager issues no shared-memory call. -/
theorem init_ion_area_failure (env : Sys) (m : private_module_t)
    (hfail : (init_ion_area env m).ret ≠ 0) :
    (init_ion_area env m).ret < 0 ∧
    ∀ sz, Call.ashmem_create_region sz ∉ (init_ion_area env m).trace := by
  unfold init_ion_area init_ion_area_locked at hfail ⊢
  simp only at hfail ⊢
  split_ifs at hfail ⊢ <;> simp_all
  all_goals omega

/-- C9: when the usage wants the contiguous-memory backend (`HW_TEXTURE` or
`HW_2D` set) and the connection manager reports a failure: without `HW_2D` the
request continues at `try_ashmem` with the flags cleared, exactly one
shared-memory region is requested, and when the region is created the handle
returned has the `USES_ION` flag clear and its physical address left at the
constructor's zero; with `HW_2D` the call returns the connection error, which
is negative, stores no handle and issues no shared-memory call. -/
theorem ion_connection_failure (env : Sys) (m : private_module_t) (size : Int)
    (usage : Nat)
    (hwant : usage &&& GRALLOC_USAGE_HW_TEXTURE ≠ 0 ∨ usage &&& GRALLOC_USAGE_HW_2D ≠ 0)
    (hfail : (init_ion_area env m).ret ≠ 0) :
    (usage &&& GRALLOC_USAGE_HW_2D = 0 →
      gralloc_alloc_buffer env m size usage
        = try_ashmem env (init_ion_area env m).module (roundUpToPageSize size) 0
            (init_ion_area env m).trace ∧
      (gralloc_alloc_buffer env m size usage).trace
        = (init_ion_area env m).trace
            ++ [.ashmem_create_region (roundUpToPageSize size)] ∧
      (0 ≤ env.ashmem_create_region →
        ∃ hnd, (gralloc_alloc_buffer env m size usage).ret = 0 ∧
          (gralloc_alloc_buffer env m size usage).handle = some hnd ∧
          hnd.fd = env.ashmem_create_region ∧
          hnd.flags &&& PRIV_FLAGS_USES_ION = 0 ∧ hnd.phys = 0)) ∧
    (usage &&& GRALLOC_USAGE_HW_2D ≠ 0 →
      gralloc_alloc_buffer env m size usage
        = ⟨(init_ion_area env m).ret, (init_ion_area env m).module, none,
           (init_ion_area env m).trace⟩ ∧
      (init_ion_area env m).ret < 0 ∧
      ∀ sz, Call.ashmem_create_region sz ∉ (gralloc_alloc_buffer env m size usage).trace) := by
  have hf1 : ¬ ((0 ||| PRIV_FLAGS_USES_ION) &&& PRIV_FLAGS_USES_ION = 0) := by decide
  have hf2 : ¬ ((0 ||| PRIV_FLAGS_USES_ION ||| PRIV_FLAGS_USES_ION)
      &&& PRIV_FLAGS_USES_ION = 0) := by decide
  have hf3 : (0 ||| PRIV_FLAGS_USES_ION) &&& (0xFFFFFFFF ^^^ PRIV_FLAGS_USES_ION) = 0 := by
    decide
  have hf4 : 0 &&& PRIV_FLAGS_USES_ION = 0 := by decide
  obtain ⟨hneg, hnoash⟩ := init_ion_area_failure env m hfail
  constructor
  · intro h2d
    have htex : usage &&& GRALLOC_USAGE_HW_TEXTURE ≠ 0 := by
      rcases hwant with h | h
      · exact h
      · exact absurd h2d h
    have hcall : gralloc_alloc_buffer env m size usage
        = try_ashmem env (init_ion_area env m).module (roundUpToPageSize size) 0
            (init_ion_area env m).trace := by
      unfold gralloc_alloc_buffer
      simp only [htex, h2d, hfail, hf1, hf3, ne_eq, not_false_eq_true, not_true_eq_false,
        if_true, if_false]
    refine ⟨hcall, ?_, ?_⟩
    · rw [hcall]
      unfold try_ashmem alloc_buffer_finish
      simp only
      split_ifs <;> rfl
    · intro hfd
      have hnlt : ¬ env.ashmem_create_region < 0 := by omega
      rw [hcall]
      unfold try_ashmem alloc_buffer_finish
      simp only [hnlt, hf4, ne_eq, not_true_eq_false, if_false, if_true]
      exact ⟨_, trivial, rfl, rfl, hf4, rfl⟩
  · intro h2d
    have hcall : gralloc_alloc_buffer env m size usage
        = ⟨(init_ion_area env m).ret, (init_ion_area env m).module, none,
           (init_ion_area env m).trace⟩ := by
      unfold gralloc_alloc_buffer alloc_buffer_finish
      by_cases htex : usage &&& GRALLOC_USAGE_HW_TEXTURE = 0
      · simp only [htex, h2d, hfail, hf1, ne_eq, not_false_eq_true, not_true_eq_false,
          if_true, if_false]
      · simp only [htex, h2d, hfail, hf2, ne_eq, not_false_eq_true, not_true_eq_false,
          if_true, if_false]
    refine ⟨hcall, hneg, ?_⟩
    rw [hcall]
    exact hnoash

/-- Witness of C9: the open fails with `ENOENT`; a texture request falls back
to shared memory, a 2D request fails with `-ENOENT`. -/
theorem ion_connection_failure_witness :
    ((gralloc_alloc_buffer (open_fails_sys 2) HAL_MODULE_INFO_SYM 100
        GRALLOC_USAGE_HW_TEXTURE).trace
      = (init_ion_area (open_fails_sys 2) HAL_MODULE_INFO_SYM).trace
          ++ [.ashmem_create_region (roundUpToPageSize 100)]) ∧
    gralloc_alloc_buffer (open_fails_sys 2) HAL_MODULE_INFO_SYM 100 GRALLOC_USAGE_HW_2D
      = ⟨-2, { HAL_MODULE_INFO_SYM with ion_master := -2 }, none,
         [.lock, .ion_open, .unlock]⟩ :=
  ⟨((ion_connection_failure (open_fails_sys 2) HAL_MODULE_INFO_SYM 100
      GRALLOC_USAGE_HW_TEXTURE (Or.inl (by decide)) (by decide)).1 (by decide)).2.1,
   by decide⟩

/-! ## The connection state machine -/

/-- A cached failure (an `ion_master` below `-1`) is returned as it is, with no
open attempt and no change of state. -/
theorem init_ion_area_cached_failure (env : Sys) (m : private_module_t)
    (h : m.ion_master < -1) :
    init_ion_area env m = ⟨m.ion_master, m, [.lock, .unlock]⟩ := by
  have h1 : ¬ m.ion_master = -1 := by omega
  have h2 : m.ion_master < 0 := by omega
  unfold init_ion_area
  simp only [h1, h2, if_false, if_true]

/-- Any number of calls on a cached failure return it and never open the
backend. -/
theorem init_ion_area_run_cached_failure (envs : List Sys) (m : private_module_t)
    (h : m.ion_master < -1) :
    (init_ion_area_run envs m).1 = List.replicate envs.length m.ion_master ∧
    (init_ion_area_run envs m).2.1 = m ∧
    open_attempts (init_ion_area_run envs m).2.2 = 0 := by
  induction envs with
  | nil => exact ⟨rfl, rfl, rfl⟩
  | cons env rest ih =>
    obtain ⟨ih1, ih2, ih3⟩ := ih
    simp only [init_ion_area_run, init_ion_area_cached_failure env m h, List.length_cons,
      List.replicate_succ, ih1, ih2]
    refine ⟨trivial, trivial, ?_⟩
    unfold open_attempts at ih3 ⊢
    rw [List.count_append, ih3]
    decide

/-- An open that fails with an error number of at least 2, on a module that
never attempted the connection: the failure is returned and cached, and the
`N` following calls return it again with no further open attempt. -/
theorem open_failure_cached (env : Sys) (envs : List Sys) (m : private_module_t)
    (hinit : m.ion_master = -1) (hopen : env.ion_open < 0) (herr : 2 ≤ env.ion_open_errno) :
    (init_ion_area_run (env :: envs) m).1
      = List.replicate (envs.length + 1) (-(env.ion_open_errno : Int)) ∧
    open_attempts (init_ion_area_run (env :: envs) m).2.2 = 1 := by
  have hne : ¬ env.ion_open ≥ 0 := by omega
  have hnz : ¬ (-(env.ion_open_errno : Int)) = 0 := by omega
  have hfirst : init_ion_area env m
      = ⟨-(env.ion_open_errno : Int), { m with ion_master := -(env.ion_open_errno : Int) },
         [.lock, .ion_open, .unlock]⟩ := by
    unfold init_ion_area init_ion_area_locked
    simp only [hinit, hne, hnz, ne_eq, not_false_eq_true, if_true, if_false]
  obtain ⟨h1, _, h3⟩ := init_ion_area_run_cached_failure envs
    { m with ion_master := -(env.ion_open_errno : Int) } (by show -(env.ion_open_errno : Int) < -1; omega)
  simp only [init_ion_area_run, hfirst, h1, List.replicate_succ]
  refine ⟨trivial, ?_⟩
  unfold open_attempts at h3 ⊢
  rw [List.count_append, h3]
  decide

/-- C10, the failing input: the first open fails with `errno = EPERM = 1`, so
the code stored in `ion_master` is `-1`, the value that means "never
attempted"; the following call opens the backend a second time and, the open
succeeding, returns 0 instead of the cached failure. -/
theorem eperm_failure_is_retried :
    (open_fails_sys 1).ion_open < 0 ∧
    init_ion_area (open_fails_sys 1) HAL_MODULE_INFO_SYM
      = ⟨-1, HAL_MODULE_INFO_SYM, [.lock, .ion_open, .unlock]⟩ ∧
    (init_ion_area_run [open_fails_sys 1, sample_sys] HAL_MODULE_INFO_SYM).1 = [-1, 0] ∧
    (init_ion_area_run [open_fails_sys 1, sample_sys] HAL_MODULE_INFO_SYM).2.1.ion_master = 3 ∧
    open_attempts (init_ion_area_run [open_fails_sys 1, sample_sys] HAL_MODULE_INFO_SYM).2.2
      = 2 := by
  decide

/-! ## Failures inside the contiguous-memory branch -/

/-- With a live connection the connection manager returns 0 at once. -/
theorem init_ion_area_live (env : Sys) (m : private_module_t) (h : 0 ≤ m.ion_master) :
    init_ion_area env m = ⟨0, m, [.lock, .unlock]⟩ := by
  have h1 : ¬ m.ion_master = -1 := by omega
  have h2 : ¬ m.ion_master < 0 := by omega
  unfold init_ion_area
  simp only [h1, h2, if_false]

/-- The usage bits that select the contiguous-memory backend set the
`USES_ION` flag (lines 235-246). -/
theorem wants_ion_flags (usage : Nat)
    (hwant : usage &&& GRALLOC_USAGE_HW_TEXTURE ≠ 0 ∨ usage &&& GRALLOC_USAGE_HW_2D ≠ 0) :
    ¬ ((if usage &&& GRALLOC_USAGE_HW_2D ≠ 0 then
          (if usage &&& GRALLOC_USAGE_HW_TEXTURE ≠ 0 then 0 ||| PRIV_FLAGS_USES_ION else 0)
            ||| PRIV_FLAGS_USES_ION
        else (if usage &&& GRALLOC_USAGE_HW_TEXTURE ≠ 0 then 0 ||| PRIV_FLAGS_USES_ION else 0))
        &&& PRIV_FLAGS_USES_ION = 0) := by
  by_cases h1 : usage &&& GRALLOC_USAGE_HW_TEXTURE = 0 <;>
    by_cases h2 : usage &&& GRALLOC_USAGE_HW_2D = 0 <;>
    simp only [h1, h2, ne_eq, not_true_eq_false, not_false_eq_true, if_true, if_false]
  · rcases hwant with h | h <;> contradiction
  all_goals decide

/-- With a live connection and a usage that wants the contiguous-memory
backend: a negative code of the allocation or of the share step is returned as
it is, and a zero physical address makes the call return `-errno`; in each case
no handle is stored and the calls issued stop at the failing step, so the
shared-memory backend is never called. -/
theorem ion_branch_failure (env : Sys) (m : private_module_t) (size : Int) (usage : Nat)
    (hwant : usage &&& GRALLOC_USAGE_HW_TEXTURE ≠ 0 ∨ usage &&& GRALLOC_USAGE_HW_2D ≠ 0)
    (hlive : 0 ≤ m.ion_master) :
    (env.ion_alloc < 0 →
      gralloc_alloc_buffer env m size usage
        = ⟨env.ion_alloc, m, none,
           [.lock, .unlock, .ion_alloc m.ion_master (roundUpToPageSize size)]⟩) ∧
    (¬ env.ion_alloc < 0 → env.ion_share < 0 →
      gralloc_alloc_buffer env m size usage
        = ⟨env.ion_share, m, none,
           [.lock, .unlock, .ion_alloc m.ion_master (roundUpToPageSize size),
            .ion_share m.ion_master]⟩) ∧
    (¬ env.ion_alloc < 0 → ¬ env.ion_share < 0 → env.ion_phys = 0 →
      gralloc_alloc_buffer env m size usage
        = ⟨-(env.ion_phys_errno : Int), { m with master_phys := env.ion_phys }, none,
           [.lock, .unlock, .ion_alloc m.ion_master (roundUpToPageSize size),
            .ion_share m.ion_master, .ion_phys m.ion_master]⟩) := by
  have hf := wants_ion_flags usage hwant
  have hi := init_ion_area_live env m hlive
  refine ⟨?_, ?_, ?_⟩
  · intro h1
    unfold gralloc_alloc_buffer
    simp only [hf, hi, h1, if_false, if_true, List.cons_append, List.nil_append]
  · intro h1 h2
    unfold gralloc_alloc_buffer
    simp only [hf, hi, h1, h2, if_false, if_true, List.cons_append, List.nil_append]
  · intro h1 h2 h3
    unfold gralloc_alloc_buffer
    simp only [hf, hi, h1, h2, h3, if_false, if_true, List.cons_append, List.nil_append]

/-- C11, the failing input: with a live connection, the allocation and the
share succeeding, the read-back of the physical address yields zero while
`errno` is zero; `gralloc_alloc_buffer` returns `-errno = 0`, which is not
negative, with no handle stored, and `gralloc_alloc` goes on to dereference the
handle that was never stored. -/
theorem phys_zero_returns_success :
    0 ≤ live_module.ion_master ∧ phys_zero_sys.ion_phys = 0 ∧
    gralloc_alloc_buffer phys_zero_sys live_module 4096 GRALLOC_USAGE_HW_2D
      = ⟨0, live_module, none,
         [.lock, .unlock, .ion_alloc 3 4096, .ion_share 3, .ion_phys 3]⟩ ∧
    gralloc_alloc phys_zero_sys live_module 32 32 .RGBA_8888 GRALLOC_USAGE_HW_2D true true
      = none := by
  decide

/-! ## Page rounding of the layout size -/

/-- The layout of a luma-chroma format when nothing overflows. -/
theorem gralloc_layout_yuv_eq (a w h : Int) (format : PixelFormat)
    (hf : isYUV format = true)
    (hw0 : -64 < w) (hw1 : w ≤ 2147483584) (hh0 : -64 < h) (hh1 : h ≤ 2147483584)
    (hsz : roundUpTo 4096 (roundUpTo 64 w * roundUpTo 64 h)
            + 2 * roundUpTo 4096
                (roundUpTo 64 w * roundUpTo 64 h / spec_chroma_divisor format)
            < 2147483648) :
    gralloc_layout a w h format
      = some ⟨roundUpTo 64 w, roundUpTo 64 h,
              roundUpTo 4096 (roundUpTo 64 w * roundUpTo 64 h)
                + 2 * roundUpTo 4096
                    (roundUpTo 64 w * roundUpTo 64 h / spec_chroma_divisor format)⟩ := by
  obtain ⟨hA, hH⟩ := aligned_area w h
  have hp : 0 ≤ (w + 63) / 64 := by omega
  have hq : 0 ≤ (h + 63) / 64 := by omega
  have hP : 0 ≤ (w + 63) / 64 * ((h + 63) / 64) := mul_nonneg hp hq
  have hr : roundUpTo 4096 (4096 * ((w + 63) / 64 * ((h + 63) / 64)))
      = 4096 * ((w + 63) / 64 * ((h + 63) / 64)) := by unfold roundUpTo; omega
  have hc0 : 0 ≤ roundUpTo 4096
      (4096 * ((w + 63) / 64 * ((h + 63) / 64)) / spec_chroma_divisor format) := by
    cases format <;> simp only [isYUV, Bool.false_eq_true] at hf <;>
      simp only [spec_chroma_divisor] <;> unfold roundUpTo <;> omega
  rw [hA] at hsz
  rw [hr] at hsz
  have hb : 4096 * ((w + 63) / 64 * ((h + 63) / 64)) < 2147483648 := by omega
  obtain ⟨hl1, _⟩ := luma_size_of_area hA hP hb
  have hc := chroma_size_of_area hf hA hH hP hsz
  unfold gralloc_layout
  simp only [hf, if_true, ALIGN_PIXEL_64_eq_roundUpTo hw0 hw1,
    ALIGN_PIXEL_64_eq_roundUpTo hh0 hh1, hc, hl1]
  rw [hA, hr]
  have e1 : toInt32 (4096 * ((w + 63) / 64 * ((h + 63) / 64))
      + 2 * roundUpTo 4096
          (4096 * ((w + 63) / 64 * ((h + 63) / 64)) / spec_chroma_divisor format))
      = 4096 * ((w + 63) / 64 * ((h + 63) / 64))
      + 2 * roundUpTo 4096
          (4096 * ((w + 63) / 64 * ((h + 63) / 64)) / spec_chroma_divisor format) :=
    toInt32_eq_self (by omega) (by omega)
  rw [e1, toSizeT_eq_self (by omega) (by omega)]

/-- The layout of a packed format when nothing overflows. -/
theorem gralloc_layout_rgb_eq (a w h : Int) (format : PixelFormat) (b : Int)
    (hb : bpp format = some b) (ha : 0 < a)
    (hw0 : -a < w) (hw1 : w + a ≤ 2147483648)
    (hh0 : -a < h) (hh1 : h + a ≤ 2147483648)
    (hsz : roundUpTo a w * roundUpTo a h * b < 4294967296) :
    gralloc_layout a w h format
      = some ⟨roundUpTo a w, roundUpTo a h, roundUpTo a w * roundUpTo a h * b⟩ := by
  have hnw := roundUpTo_nonneg ha hw0
  have hnh := roundUpTo_nonneg ha hh0
  have hA : 0 ≤ roundUpTo a w * roundUpTo a h := mul_nonneg hnw hnh
  have hny : isYUV format = false := by
    cases format <;> simp [bpp] at hb <;> rfl
  have hb2 : b = 4 ∨ b = 3 ∨ b = 2 := by
    cases format <;> simp [bpp] at hb <;> omega
  unfold gralloc_layout
  simp only [hny, Bool.false_eq_true, if_false, ALIGN_PIXEL_eq_roundUpTo ha hw0 hw1,
    ALIGN_PIXEL_eq_roundUpTo ha hh0 hh1, hb]
  have e1 : toSizeT (roundUpTo a w * roundUpTo a h) = roundUpTo a w * roundUpTo a h := by
    apply toSizeT_eq_self hA
    rcases hb2 with rfl | rfl | rfl <;> omega
  rw [e1, toSizeT_eq_self (by rcases hb2 with rfl | rfl | rfl <;> omega) hsz]

/-- A supported format is a luma-chroma format or has a pixel size. -/
theorem supported_format (format : PixelFormat) (hsup : ∀ code, format ≠ .other code) :
    isYUV format = true ∨ ∃ b, bpp format = some b ∧ (b = 4 ∨ b = 3 ∨ b = 2) := by
  cases format <;> simp [isYUV, bpp] at hsup ⊢

/-- Rounding up does not go below the argument. -/
theorem le_roundUpTo {a x : Int} (ha : 0 < a) : x ≤ roundUpTo a x := by
  unfold roundUpTo
  have h1 := Int.emod_add_ediv (x + (a - 1)) a
  have h2 := Int.emod_lt_of_pos (x + (a - 1)) ha
  have h3 : (x + (a - 1)) / a * a = a * ((x + (a - 1)) / a) := mul_comm _ _
  omega

/-- C12: for every supported pixel format and every width and height of at
least 1, the sizes being computed without overflow, the layout exists, its size
after `roundUpToPageSize` is a positive multiple of the page size, and for a
YUV format the luma size (the offset of the chroma plane) is a multiple of
4096. -/
theorem page_rounded_layout (a w h : Int) (format : PixelFormat) (ha : 0 < a)
    (hw : 1 ≤ w) (hh : 1 ≤ h) (hsup : ∀ code, format ≠ .other code)
    (hyuv : isYUV format = true →
      w ≤ 2147483584 ∧ h ≤ 2147483584 ∧
      roundUpTo 4096 (roundUpTo 64 w * roundUpTo 64 h)
        + 2 * roundUpTo 4096 (roundUpTo 64 w * roundUpTo 64 h / spec_chroma_divisor format)
        < 2147483648)
    (hrgb : ∀ b, bpp format = some b →
      w + a ≤ 2147483648 ∧ h + a ≤ 2147483648 ∧
      roundUpTo a w * roundUpTo a h * b + 4095 < 4294967296) :
    ∃ L, gralloc_layout a w h format = some L ∧
      0 < roundUpToPageSize L.size ∧ roundUpToPageSize L.size % PAGE_SIZE = 0 ∧
      (isYUV format = true →
        luma_size L.alignedw L.alignedh % 4096 = 0 ∧
        luma_size L.alignedw L.alignedh = roundUpTo 4096 (roundUpTo 64 w * roundUpTo 64 h)) := by
  rcases supported_format format hsup with hf | ⟨b, hb, hb2⟩
  · obtain ⟨hw1, hh1, hsz⟩ := hyuv hf
    have hlay := gralloc_layout_yuv_eq a w h format hf (by omega) hw1 (by omega) hh1 hsz
    obtain ⟨hA, _⟩ := aligned_area w h
    have hp : 1 ≤ (w + 63) / 64 := by omega
    have hq : 1 ≤ (h + 63) / 64 := by omega
    have hP : 1 ≤ (w + 63) / 64 * ((h + 63) / 64) := by nlinarith
    have hc0 : 0 ≤ roundUpTo 4096
        (roundUpTo 64 w * roundUpTo 64 h / spec_chroma_divisor format) := by
      rw [hA]
      cases format <;> simp only [isYUV, Bool.false_eq_true] at hf <;>
        simp only [spec_chroma_divisor] <;> unfold roundUpTo <;> omega
    have hr : roundUpTo 4096 (roundUpTo 64 w * roundUpTo 64 h)
        = 4096 * ((w + 63) / 64 * ((h + 63) / 64)) := by
      rw [hA]; unfold roundUpTo; omega
    have hcm : roundUpTo 4096
        (roundUpTo 64 w * roundUpTo 64 h / spec_chroma_divisor format) % 4096 = 0 := by
      unfold roundUpTo; omega
    have hl := (luma_size_of_area hA (by omega) (by rw [hr] at hsz; omega))
    refine ⟨_, hlay, ?_, ?_, fun _ => ⟨?_, hl.1⟩⟩
    · simp only [roundUpToPageSize, PAGE_SIZE, toSizeT]
      rw [hr] at hsz ⊢
      omega
    · simp only [roundUpToPageSize, PAGE_SIZE, toSizeT]
      omega
    · rw [hl.2]; omega
  · obtain ⟨hw1, hh1, hsz⟩ := hrgb b hb
    have hny : isYUV format = false := by
      cases format <;> simp [bpp] at hb <;> rfl
    have hlay := gralloc_layout_rgb_eq a w h format b hb ha (by omega) hw1 (by omega) hh1
      (by omega)
    have h1 : 1 ≤ roundUpTo a w := le_trans hw (le_roundUpTo ha)
    have h2 : 1 ≤ roundUpTo a h := le_trans hh (le_roundUpTo ha)
    have h3 : 1 ≤ roundUpTo a w * roundUpTo a h := by nlinarith
    have e : toSizeT (roundUpTo a w * roundUpTo a h * b + (4096 - 1))
        = roundUpTo a w * roundUpTo a h * b + 4095 := by
      rw [toSizeT_eq_self (by rcases hb2 with rfl | rfl | rfl <;> omega) (by omega)]
      omega
    refine ⟨_, hlay, ?_, ?_, fun hy => ?_⟩
    · simp only [roundUpToPageSize, PAGE_SIZE]
      rw [e]
      rcases hb2 with rfl | rfl | rfl <;> omega
    · simp only [roundUpToPageSize, PAGE_SIZE, toSizeT]
      omega
    · rw [hny] at hy; cases hy

/-- Witness of C12: a 176x144 `YCbCr_420_SP` request. -/
theorem page_rounded_layout_witness :
    ∃ L, gralloc_layout 32 176 144 .YCbCr_420_SP = some L ∧
      0 < roundUpToPageSize L.size ∧ roundUpToPageSize L.size % PAGE_SIZE = 0 ∧
      (isYUV .YCbCr_420_SP = true →
        luma_size L.alignedw L.alignedh % 4096 = 0 ∧
        luma_size L.alignedw L.alignedh
          = roundUpTo 4096 (roundUpTo 64 176 * roundUpTo 64 144)) :=
  page_rounded_layout 32 176 144 .YCbCr_420_SP (by decide) (by decide) (by decide)
    (by intro code h; cases h) (fun _ => by decide) (fun b hb => by cases hb)

/-! ## Operations on the connection state -/

/-- A run over two sequences is the run over the first followed by the run
over the second. -/
theorem ion_run_append (pre suf : List IonOp) (m : private_module_t) :
    ion_run (pre ++ suf) m
      = ((ion_run suf (ion_run pre m).1).1,
         (ion_run pre m).2 ++ (ion_run suf (ion_run pre m).1).2) := by
  induction pre generalizing m with
  | nil => simp [ion_run]
  | cons op rest ih => simp [ion_run, ih, List.append_assoc]

/-- An operation other than the open of a framebuffer device, on a module whose
`ion_master` is not `-1`, keeps `ion_master` and opens nothing. -/
theorem ion_step_keeps (m : private_module_t) (op : IonOp)
    (hop : op.opens_framebuffer_device = false) (h : m.ion_master ≠ -1) :
    (ion_step m op).module.ion_master = m.ion_master ∧
    open_attempts (ion_step m op).trace = 0 := by
  cases op with
  | init_ion_area env =>
    by_cases hneg : m.ion_master < 0
    · have hlt : m.ion_master < -1 := by omega
      simp only [ion_step, init_ion_area_cached_failure env m hlt]
      exact ⟨trivial, by decide⟩
    · simp only [ion_step, init_ion_area_live env m (by omega)]
      exact ⟨trivial, by decide⟩
  | gralloc_device_open env gpu0 =>
    have hg : gpu0 = true := by
      cases gpu0
      · simp [IonOp.opens_framebuffer_device] at hop
      · rfl
    subst hg
    simp only [ion_step, gralloc_device_open, if_true]
    exact ⟨trivial, by decide⟩

/-- A run without the open of a framebuffer device, from a module whose
`ion_master` is not `-1`, keeps `ion_master` and opens nothing. -/
theorem ion_run_keeps (ops : List IonOp) (m : private_module_t)
    (hops : ∀ op, op ∈ ops → op.opens_framebuffer_device = false)
    (h : m.ion_master ≠ -1) :
    (ion_run ops m).1.ion_master = m.ion_master ∧ open_attempts (ion_run ops m).2 = 0 := by
  induction ops generalizing m with
  | nil => exact ⟨rfl, rfl⟩
  | cons op rest ih =>
    obtain ⟨h1, h2⟩ := ion_step_keeps m op (hops op (List.mem_cons_self _ _)) h
    obtain ⟨h3, h4⟩ := ih (ion_step m op).module
      (fun o ho => hops o (List.mem_cons_of_mem _ ho)) (by rw [h1]; exact h)
    simp only [ion_run]
    refine ⟨by rw [h3, h1], ?_⟩
    unfold open_attempts at h2 h4 ⊢
    rw [List.count_append, h2, h4]

/-- Counterexample to C14 as stated: after a successful open (`ion_master = 3`)
the open of a framebuffer device puts `ion_master` back to `-1`; and from a
cached failure (`ion_master = -2`) the same operation followed by
`init_ion_area` opens the backend again. -/
theorem device_open_resets_connection :
    (ion_run [.init_ion_area sample_sys] HAL_MODULE_INFO_SYM).1.ion_master = 3 ∧
    (ion_run [.init_ion_area sample_sys, .gralloc_device_open sample_sys false]
        HAL_MODULE_INFO_SYM).1.ion_master = -1 ∧
    (ion_run [.init_ion_area (open_fails_sys 2)] HAL_MODULE_INFO_SYM).1.ion_master = -2 ∧
    open_attempts
      (ion_run [.gralloc_device_open sample_sys false, .init_ion_area sample_sys]
        (ion_run [.init_ion_area (open_fails_sys 2)] HAL_MODULE_INFO_SYM).1).2 = 1 := by
  decide

/-- C14, amended: over every sequence of `init_ion_area` calls (any open
outcome, any `errno`) and of `gralloc_device_open` calls for the device
`GRALLOC_HARDWARE_GPU0`, once `ion_master` has a value other than `-1` it keeps
that value, so it never takes the value `-1` again, and no later operation
attempts to open the backend; `gralloc_device_open` for any other device sets
`ion_master` to `-1`. -/
theorem ion_master_sticky (pre suf : List IonOp) (m : private_module_t)
    (hsuf : ∀ op, op ∈ suf → op.opens_framebuffer_device = false)
    (h : (ion_run pre m).1.ion_master ≠ -1) :
    (ion_run (pre ++ suf) m).1.ion_master = (ion_run pre m).1.ion_master ∧
    (ion_run (pre ++ suf) m).1.ion_master ≠ -1 ∧
    open_attempts (ion_run suf (ion_run pre m).1).2 = 0 ∧
    ∀ env m1, (gralloc_device_open env m1 false).module.ion_master = -1 := by
  obtain ⟨h1, h2⟩ := ion_run_keeps suf (ion_run pre m).1 hsuf h
  rw [ion_run_append]
  refine ⟨h1, by rw [h1]; exact h, h2, ?_⟩
  intro env m1
  simp [gralloc_device_open]

/-- Witness of C14, amended: a failed open, then two more calls and the open of
the GPU device. -/
theorem ion_master_sticky_witness :
    (ion_run ([.init_ion_area (open_fails_sys 2)]
        ++ [.init_ion_area sample_sys, .gralloc_device_open sample_sys true,
            .init_ion_area sample_sys]) HAL_MODULE_INFO_SYM).1.ion_master
      = (ion_run [.init_ion_area (open_fails_sys 2)] HAL_MODULE_INFO_SYM).1.ion_master ∧
    open_attempts
      (ion_run [.init_ion_area sample_sys, .gralloc_device_open sample_sys true,
                .init_ion_area sample_sys]
        (ion_run [.init_ion_area (open_fails_sys 2)] HAL_MODULE_INFO_SYM).1).2 = 0 :=
  have h := ion_master_sticky [.init_ion_area (open_fails_sys 2)]
    [.init_ion_area sample_sys, .gralloc_device_open sample_sys true,
     .init_ion_area sample_sys] HAL_MODULE_INFO_SYM
    (by intro op hop; simp at hop; rcases hop with rfl | rfl | rfl <;> rfl)
    (by decide)
  ⟨h.1, h.2.2.1⟩

/-! ## The size field of a handle -/

/-- A handle built by lines 300-316 carries the size it was given, as an
`int`. -/
theorem alloc_buffer_finish_size (m : private_module_t) (err fd size : Int) (flags : Nat)
    (bh : Option Int) (t : List Call) (hnd : private_handle_t)
    (h : (alloc_buffer_finish m err fd size flags bh t).handle = some hnd) :
    hnd.size = toInt32 size := by
  unfold alloc_buffer_finish at h
  simp only at h
  split_ifs at h <;> (simp only [Option.some.injEq] at h; subst h; rfl)

/-- A page-rounded size stays a multiple of the page size as an `int`. -/
theorem toInt32_roundUpToPageSize (x : Int) : toInt32 (roundUpToPageSize x) % PAGE_SIZE = 0 := by
  unfold toInt32 roundUpToPageSize PAGE_SIZE
  generalize toSizeT (x + (4096 - 1)) / 4096 = q
  omega

/-- A handle built by the heap allocator has a page-rounded size. -/
theorem alloc_buffer_size (env : Sys) (m : private_module_t) (size : Int)
    (usage : Nat) (hnd : private_handle_t)
    (h : (gralloc_alloc_buffer env m size usage).handle = some hnd) :
    hnd.size % PAGE_SIZE = 0 := by
  unfold gralloc_alloc_buffer try_ashmem at h
  simp only at h
  split_ifs at h <;>
    (rw [alloc_buffer_finish_size _ _ _ _ _ _ _ hnd h]; exact toInt32_roundUpToPageSize _)

/-- A handle stored by `gralloc_alloc_framebuffer_locked` either comes from the
heap allocator (no framebuffer-slice flag, page-rounded size) or is a
framebuffer slice whose size is the size requested. -/
theorem framebuffer_locked_handle (env : Sys) (m : private_module_t) (size : Int)
    (usage : Nat) (r : AllocResult) (hnd : private_handle_t)
    (hr : gralloc_alloc_framebuffer_locked env m size usage = some r)
    (hh : r.handle = some hnd) :
    (hnd.flags &&& PRIV_FLAGS_FRAMEBUFFER = 0 ∧ hnd.size % PAGE_SIZE = 0) ∨
    (hnd.flags &&& PRIV_FLAGS_FRAMEBUFFER ≠ 0 ∧ hnd.size = toInt32 size) := by
  unfold gralloc_alloc_framebuffer_locked at hr
  simp only at hr
  split_ifs at hr
  · cases hr; cases hh
  · cases hr
    exact Or.inl ⟨alloc_buffer_not_framebuffer _ _ _ _ hnd hh, alloc_buffer_size _ _ _ _ hnd hh⟩
  · cases hr; cases hh
  · split at hr
    · cases hr
    · cases hr
      simp only [Option.some.injEq] at hh
      subst hh
      refine Or.inr ⟨?_, rfl⟩
      show (PRIV_FLAGS_USES_ION ||| PRIV_FLAGS_FRAMEBUFFER) &&& PRIV_FLAGS_FRAMEBUFFER ≠ 0
      decide

/-- Counterexample to C15 as stated: a 32x32 `RGB_565` request with framebuffer
usage on a module with two free slots succeeds and returns a framebuffer slice
whose size field is the layout size `32 * 32 * 2 = 2048`, not a multiple of the
page size. -/
theorem framebuffer_slice_size_not_rounded :
    (gralloc_alloc sample_sys (sample_module 2 0) 32 32 .RGB_565 GRALLOC_USAGE_HW_FB
        true true).map (fun r => (r.ret, r.handle.map (fun hnd => (hnd.flags, hnd.size))))
      = some (0, some (PRIV_FLAGS_USES_ION ||| PRIV_FLAGS_FRAMEBUFFER, 2048)) ∧
    (2048 : Int) % PAGE_SIZE ≠ 0 := by
  decide

/-- C15, amended: for every successful `gralloc_alloc` call whose handle does
not carry the framebuffer-slice flag (heap via contiguous memory, heap via
shared memory, single-buffer framebuffer fallback) the size field of the handle
is a multiple of the page size; a handle that carries the framebuffer-slice
flag has the layout size as computed, without rounding. -/
theorem handle_size_page_rounded (env : Sys) (m : private_module_t) (w h : Int)
    (format : PixelFormat) (usage : Nat) (pHandle pStride : Bool) (r : GrallocResult)
    (hnd : private_handle_t)
    (hr : gralloc_alloc env m w h format usage pHandle pStride = some r)
    (h0 : r.ret = 0) (hh : r.handle = some hnd) :
    (hnd.flags &&& PRIV_FLAGS_FRAMEBUFFER = 0 → hnd.size % PAGE_SIZE = 0) ∧
    (hnd.flags &&& PRIV_FLAGS_FRAMEBUFFER ≠ 0 →
      ∃ L, gralloc_layout env.pixelAlign w h format = some L ∧ hnd.size = toInt32 L.size) := by
  have hEINVAL : (-EINVAL : Int) ≠ 0 := by decide
  unfold gralloc_alloc at hr
  split at hr
  · cases hr; exact absurd h0 hEINVAL
  · split at hr
    · cases hr; exact absurd h0 hEINVAL
    · rename_i L hL
      unfold gralloc_alloc_tail at hr
      simp only at hr
      split at hr
      · cases hr
      · rename_i b hb
        split at hr
        · rename_i hneg
          cases hr
          simp only at h0
          omega
        · split at hr
          · cases hr
          · rename_i hnd0 hh0
            cases hr
            simp only [Option.some.injEq] at hh
            subst hh
            have key : (hnd0.flags &&& PRIV_FLAGS_FRAMEBUFFER = 0 ∧ hnd0.size % PAGE_SIZE = 0) ∨
                (hnd0.flags &&& PRIV_FLAGS_FRAMEBUFFER ≠ 0 ∧ hnd0.size = toInt32 L.size) := by
              split_ifs at hb with hfb
              · unfold gralloc_alloc_framebuffer at hb
                split at hb
                · cases hb
                · rename_i r0 hr0
                  cases hb
                  exact framebuffer_locked_handle env m L.size usage r0 hnd0 hr0 hh0
              · cases hb
                exact Or.inl ⟨alloc_buffer_not_framebuffer _ _ _ _ hnd0 hh0,
                  alloc_buffer_size _ _ _ _ hnd0 hh0⟩
            refine ⟨?_, ?_⟩
            · intro hflag
              rcases key with ⟨_, hs⟩ | ⟨hne, _⟩
              · exact hs
              · exact absurd hflag hne
            · intro hflag
              rcases key with ⟨he, _⟩ | ⟨_, hs⟩
              · exact absurd he hflag
              · exact ⟨L, hL, hs⟩

/-- Witness of C15, amended: the 640x480 `RGBA_8888` request served from shared
memory. -/
theorem handle_size_page_rounded_witness :
    gralloc_alloc sample_sys HAL_MODULE_INFO_SYM 640 480 .RGBA_8888 0 true true
      = some sample_rgba_result ∧
    (private_handle_t.new 5 1228800 0).size % PAGE_SIZE = 0 :=
  ⟨by decide,
   (handle_size_page_rounded sample_sys HAL_MODULE_INFO_SYM 640 480 .RGBA_8888 0 true true
    sample_rgba_result
    { private_handle_t.new 5 1228800 0 with
      usage := 0, format := .RGBA_8888, width := 640, height := 480 }
    (by decide) rfl rfl).1 (by decide)⟩

/-! ## The 176x144 `YCbCr_420_SP` layout -/

/-- Counterexample to C16 as stated: for the 176x144 `YCbCr_420_SP` request the
chroma size the code computes is 24576, which is not the half-area value
`2 * roundUp4096(192 * 192 / 2) = 40960`. -/
theorem chroma_420_is_not_half_area :
    chroma_size .YCbCr_420_SP 192 192 = some 24576 ∧
    2 * roundUpTo 4096 (192 * 192 / 2) = 40960 ∧
    chroma_size .YCbCr_420_SP 192 192 ≠ some (2 * roundUpTo 4096 (192 * 192 / 2)) := by
  decide

/-- C16, amended: for a 176x144 `YCbCr_420_SP` request `gralloc_alloc` computes
the aligned dimensions 192x192 (multiples of 64), a luma size of 36864 (a
multiple of 4096), a chroma size of 24576, which is the quarter-area value
`2 * roundUp4096(alignedw * alignedh / 4)`, and a total size of luma + chroma,
whatever the alignment of `ALIGN_PIXEL`. -/
theorem layout_176x144_420_SP (a : Int) :
    gralloc_layout a 176 144 .YCbCr_420_SP = some ⟨192, 192, 36864 + 24576⟩ ∧
    roundUpTo 64 176 = 192 ∧ roundUpTo 64 144 = 192 ∧
    luma_size 192 192 = 36864 ∧ (36864 : Int) % 4096 = 0 ∧
    chroma_size .YCbCr_420_SP 192 192 = some 24576 ∧
    2 * roundUpTo 4096 (192 * 192 / 4) = 24576 := by
  refine ⟨?_, by decide, by decide, by decide, by decide, by decide, by decide⟩
  have h : gralloc_layout a 176 144 .YCbCr_420_SP
      = gralloc_layout 0 176 144 .YCbCr_420_SP := by
    simp [gralloc_layout, isYUV]
  rw [h]
  decide

/-! ## Teardown of invalid and of heap handles -/

/-- C17: a handle that fails the structural validation makes `gralloc_free`
return `-EINVAL` with the module state unchanged and no call issued; a valid
handle that is not a framebuffer slice makes it return 0 with the module state
(the slot bitmap included) unchanged, and the close of the handle's descriptor
is the last call issued, after the teardown calls, whatever the unmap step
returns; it is the only close of that descriptor, the descriptor of the
short-lived connection being another one. -/
theorem free_invalid_or_heap (env : Sys) (m : private_module_t)
    (handle : Option private_handle_t) :
    (private_handle_t.validate handle < 0 →
      gralloc_free env m handle = some ⟨-EINVAL, m, []⟩) ∧
    (∀ hnd, handle = some hnd → ¬ private_handle_t.validate handle < 0 →
      hnd.flags &&& PRIV_FLAGS_FRAMEBUFFER = 0 →
      ∃ t, gralloc_free env m handle = some ⟨0, m, t ++ [.close hnd.fd]⟩ ∧
        (t = [.terminateBuffer] ∨
         t = [.terminateBuffer, .ion_open, .ion_import env.ion_open,
              .munmap hnd.base hnd.size, .ion_free env.ion_open, .close env.ion_open]) ∧
        (env.ion_open ≠ hnd.fd →
          List.count (Call.close hnd.fd) (t ++ [Call.close hnd.fd]) = 1) ∧
        ∀ code, gralloc_free { env with munmap := code } m handle
                  = gralloc_free env m handle) := by
  constructor
  · intro hv
    unfold gralloc_free
    simp only [hv, if_true]
  · intro hnd hh hv hflag
    subst hh
    have hnf : ¬ (hnd.flags &&& PRIV_FLAGS_FRAMEBUFFER ≠ 0) := by simp [hflag]
    by_cases hion : hnd.flags &&& PRIV_FLAGS_USES_ION ≠ 0
    · refine ⟨[.terminateBuffer, .ion_open, .ion_import env.ion_open,
        .munmap hnd.base hnd.size, .ion_free env.ion_open, .close env.ion_open], ?_,
        Or.inr rfl, ?_, ?_⟩
      · unfold gralloc_free
        simp only [hv, hnf, hion, ne_eq, not_false_eq_true, not_true_eq_false, if_true,
          if_false]
      · intro hne
        have hne2 : ¬ (env.ion_open = hnd.fd) := hne
        simp [List.count_cons, hne2]
      · intro code
        unfold gralloc_free
        simp only [hv, hnf, hion, ne_eq, not_false_eq_true, not_true_eq_false, if_true,
          if_false]
    · refine ⟨[.terminateBuffer], ?_, Or.inl rfl, ?_, ?_⟩
      · unfold gralloc_free
        simp only [hv, hnf, hion, ne_eq, not_false_eq_true, not_true_eq_false, if_true,
          if_false]
      · intro _
        simp [List.count_cons]
      · intro code
        unfold gralloc_free
        simp only [hv, hnf, hion, ne_eq, not_false_eq_true, not_true_eq_false, if_true,
          if_false]

/-- Witness of C17: the null handle is rejected, and a valid handle on
contiguous memory is torn down and closed last although the unmap step
fails. -/
theorem free_invalid_or_heap_witness :
    gralloc_free sample_sys (sample_module 3 7) none
      = some ⟨-EINVAL, sample_module 3 7, []⟩ ∧
    gralloc_free { sample_sys with munmap := -1 } (sample_module 3 7)
        (some sample_ion_handle)
      = some ⟨0, sample_module 3 7,
              [.terminateBuffer, .ion_open, .ion_import 3, .munmap 0x50000000 8192,
               .ion_free 3, .close 3, .close 4]⟩ :=
  ⟨(free_invalid_or_heap sample_sys (sample_module 3 7) none).1 (by decide), by decide⟩

/-! ## Opening and reusing the connection -/

/-- C18: from the never-attempted state (`ion_master = -1`) with an open that
succeeds with a descriptor `fd >= 0`, `init_ion_area` returns 0 and leaves
`ion_master = fd`; from a live state (`ion_master >= 0`) it returns 0 without
any open attempt and leaves the module unchanged. -/
theorem init_ion_area_opens_or_reuses (env : Sys) (m : private_module_t) :
    (m.ion_master = -1 → 0 ≤ env.ion_open →
      init_ion_area env m
        = ⟨0, { m with ion_master := env.ion_open }, [.lock, .ion_open, .unlock]⟩) ∧
    (0 ≤ m.ion_master →
      init_ion_area env m = ⟨0, m, [.lock, .unlock]⟩ ∧
      open_attempts (init_ion_area env m).trace = 0) := by
  constructor
  · intro h1 h2
    have h3 : env.ion_open ≥ 0 := h2
    unfold init_ion_area init_ion_area_locked
    simp only [h1, h3, if_true, ne_eq, not_true_eq_false, if_false]
  · intro h
    have h1 : ¬ m.ion_master = -1 := by omega
    have h2 : ¬ m.ion_master < 0 := by omega
    have e : init_ion_area env m = ⟨0, m, [.lock, .unlock]⟩ := by
      unfold init_ion_area
      simp only [h1, h2, if_false]
    refine ⟨e, ?_⟩
    rw [e]
    rfl

/-- Witness of C18: the first call opens descriptor 3, the second reuses
it. -/
theorem init_ion_area_opens_or_reuses_witness :
    init_ion_area sample_sys HAL_MODULE_INFO_SYM
      = ⟨0, { HAL_MODULE_INFO_SYM with ion_master := 3 }, [.lock, .ion_open, .unlock]⟩ ∧
    init_ion_area sample_sys live_module = ⟨0, live_module, [.lock, .unlock]⟩ :=
  ⟨(init_ion_area_opens_or_reuses sample_sys HAL_MODULE_INFO_SYM).1 rfl (by decide),
   by decide⟩

/-! ## The module lock -/

/-- The function `gralloc_free` never takes the module lock. -/
theorem gralloc_free_never_locks (env : Sys) (m : private_module_t)
    (handle : Option private_handle_t) (r : StateResult)
    (h : gralloc_free env m handle = some r) : Call.lock ∉ r.trace := by
  unfold gralloc_free at h
  simp only at h
  repeat' split at h
  all_goals first
    | (cases h; done)
    | (cases h; simp)

/-- The function `gralloc_device_open` never takes the module lock. -/
theorem gralloc_device_open_never_locks (env : Sys) (m : private_module_t) (gpu0 : Bool) :
    Call.lock ∉ (gralloc_device_open env m gpu0).trace := by
  unfold gralloc_device_open
  split_ifs <;> simp

/-- C19, the failing inputs: freeing the handle of slot 1 changes `bufferMask`
from `0b111` to `0b101` in an execution that never takes the module lock, and
the open of a framebuffer device changes `ion_master` from 3 to `-1` in an
execution that never takes it either. -/
theorem state_changes_without_lock :
    gralloc_free sample_sys (sample_module 3 7) (some sample_slot_handle)
      = some ⟨0, { sample_module 3 7 with bufferMask := 5 }, [.close 7]⟩ ∧
    Call.lock ∉ [Call.close 7] ∧
    live_module.ion_master = 3 ∧
    gralloc_device_open sample_sys live_module false
      = ⟨0, { live_module with flags := 0, ion_master := -1, master_phys := 0 },
         [.fb_device_open]⟩ ∧
    Call.lock ∉ [Call.fb_device_open] := by
  decide

/-! ## The size covers the image and grows with it -/

/-- Rounding up is monotone. -/
theorem roundUpTo_mono {a x y : Int} (ha : 0 < a) (hxy : x ≤ y) :
    roundUpTo a x ≤ roundUpTo a y := by
  unfold roundUpTo
  exact mul_le_mul_of_nonneg_right (Int.ediv_le_ediv ha (by omega)) (le_of_lt ha)

/-- The size of a luma-chroma layout as a function of the aligned area, for the
two subsampling divisors: it is monotone, and it covers twice the area
(divisor 2) or one and a half times the area (divisor 4) when the area is a
multiple of 4096. -/
theorem yuv_size_of_area (A B : Int) (hAB : A ≤ B) :
    roundUpTo 4096 A + 2 * roundUpTo 4096 (A / 2)
      ≤ roundUpTo 4096 B + 2 * roundUpTo 4096 (B / 2) ∧
    roundUpTo 4096 A + 2 * roundUpTo 4096 (A / 4)
      ≤ roundUpTo 4096 B + 2 * roundUpTo 4096 (B / 4) ∧
    (A % 4096 = 0 → 2 * A ≤ roundUpTo 4096 A + 2 * roundUpTo 4096 (A / 2)) ∧
    (A % 4096 = 0 → 3 * A ≤ 2 * (roundUpTo 4096 A + 2 * roundUpTo 4096 (A / 4))) := by
  have m1 := roundUpTo_mono (a := 4096) (by decide) hAB
  have m2 := roundUpTo_mono (a := 4096) (x := A / 2) (y := B / 2) (by decide) (by omega)
  have m4 := roundUpTo_mono (a := 4096) (x := A / 4) (y := B / 4) (by decide) (by omega)
  have l1 := le_roundUpTo (a := 4096) (x := A) (by decide)
  have l2 := le_roundUpTo (a := 4096) (x := A / 2) (by decide)
  have l4 := le_roundUpTo (a := 4096) (x := A / 4) (by decide)
  refine ⟨by omega, by omega, fun h => by omega, fun h => by omega⟩

/-- C20: for every supported format and every `0 <= w <= w'`, `0 <= h <= h'`,
the sizes for `w'`, `h'` being computed without overflow, the size
`gralloc_alloc` computes for `w`, `h` covers the requested image (`w * h * bpp`
bytes for a packed format, `2 * w * h` for a 4:2:2 format, and one and a half
times `w * h` for a 4:2:0 format) and is at most the size computed for `w'`,
`h'`. -/
theorem size_covers_and_grows (a w h w' h' : Int) (format : PixelFormat) (ha : 0 < a)
    (hw : 0 ≤ w) (hh : 0 ≤ h) (hww : w ≤ w') (hhh : h ≤ h')
    (hsup : ∀ code, format ≠ .other code)
    (hyuv : isYUV format = true →
      w' ≤ 2147483584 ∧ h' ≤ 2147483584 ∧
      roundUpTo 4096 (roundUpTo 64 w' * roundUpTo 64 h')
        + 2 * roundUpTo 4096 (roundUpTo 64 w' * roundUpTo 64 h' / spec_chroma_divisor format)
        < 2147483648)
    (hrgb : ∀ b, bpp format = some b →
      w' + a ≤ 2147483648 ∧ h' + a ≤ 2147483648 ∧
      roundUpTo a w' * roundUpTo a h' * b < 4294967296) :
    ∃ L L', gralloc_layout a w h format = some L ∧
      gralloc_layout a w' h' format = some L' ∧
      (∀ b, bpp format = some b → w * h * b ≤ L.size) ∧
      (format = .YCbCr_422_SP ∨ format = .YCbCr_422_I ∨ format = .YCbCr_422_P →
        2 * (w * h) ≤ L.size) ∧
      (format = .YCbCr_420_SP ∨ format = .YCbCr_420_P ∨ format = .YV12 →
        3 * (w * h) ≤ 2 * L.size) ∧
      L.size ≤ L'.size := by
  rcases supported_format format hsup with hf | ⟨b, hb, hb2⟩
  · obtain ⟨hw1, hh1, hsz⟩ := hyuv hf
    have hnb : bpp format = none := by
      cases format <;> simp only [isYUV, Bool.false_eq_true] at hf <;> rfl
    have a1 : w ≤ roundUpTo 64 w := le_roundUpTo (by decide)
    have a2 : h ≤ roundUpTo 64 h := le_roundUpTo (by decide)
    have b1 : roundUpTo 64 w ≤ roundUpTo 64 w' := roundUpTo_mono (by decide) hww
    have b2 : roundUpTo 64 h ≤ roundUpTo 64 h' := roundUpTo_mono (by decide) hhh
    have hwh : w * h ≤ roundUpTo 64 w * roundUpTo 64 h :=
      mul_le_mul a1 a2 hh (by omega)
    have hAB : roundUpTo 64 w * roundUpTo 64 h ≤ roundUpTo 64 w' * roundUpTo 64 h' :=
      mul_le_mul b1 b2 (by omega) (by omega)
    have hmod : roundUpTo 64 w * roundUpTo 64 h % 4096 = 0 := by
      rw [(aligned_area w h).1]; omega
    obtain ⟨y2, y4, c2, c4⟩ := yuv_size_of_area _ _ hAB
    have hd : spec_chroma_divisor format = 2 ∨ spec_chroma_divisor format = 4 := by
      cases format <;> simp [spec_chroma_divisor]
    have hmono : roundUpTo 4096 (roundUpTo 64 w * roundUpTo 64 h)
        + 2 * roundUpTo 4096 (roundUpTo 64 w * roundUpTo 64 h / spec_chroma_divisor format)
        ≤ roundUpTo 4096 (roundUpTo 64 w' * roundUpTo 64 h')
        + 2 * roundUpTo 4096
            (roundUpTo 64 w' * roundUpTo 64 h' / spec_chroma_divisor format) := by
      rcases hd with e | e <;> rw [e] <;> assumption
    have hlay := gralloc_layout_yuv_eq a w h format hf (by omega) (by omega) (by omega)
      (by omega) (by omega)
    have hlay' := gralloc_layout_yuv_eq a w' h' format hf (by omega) hw1 (by omega) hh1 hsz
    refine ⟨_, _, hlay, hlay', ?_, ?_, ?_, hmono⟩
    · intro b hb; rw [hnb] at hb; cases hb
    · intro h422
      have e : spec_chroma_divisor format = 2 := by
        rcases h422 with rfl | rfl | rfl <;> rfl
      simp only [e]
      have := c2 hmod
      omega
    · intro h420
      have e : spec_chroma_divisor format = 4 := by
        rcases h420 with rfl | rfl | rfl <;> rfl
      simp only [e]
      have := c4 hmod
      omega
  · obtain ⟨hw1, hh1, hsz⟩ := hrgb b hb
    have hbpos : 0 < b := by omega
    have a1 : w ≤ roundUpTo a w := le_roundUpTo ha
    have a2 : h ≤ roundUpTo a h := le_roundUpTo ha
    have b1 : roundUpTo a w ≤ roundUpTo a w' := roundUpTo_mono ha hww
    have b2 : roundUpTo a h ≤ roundUpTo a h' := roundUpTo_mono ha hhh
    have hwh : w * h ≤ roundUpTo a w * roundUpTo a h := mul_le_mul a1 a2 hh (by omega)
    have hAB : roundUpTo a w * roundUpTo a h ≤ roundUpTo a w' * roundUpTo a h' :=
      mul_le_mul b1 b2 (by omega) (by omega)
    have hmono : roundUpTo a w * roundUpTo a h * b ≤ roundUpTo a w' * roundUpTo a h' * b :=
      mul_le_mul_of_nonneg_right hAB (le_of_lt hbpos)
    have hlay := gralloc_layout_rgb_eq a w h format b hb ha (by omega) (by omega) (by omega)
      (by omega) (by omega)
    have hlay' := gralloc_layout_rgb_eq a w' h' format b hb ha (by omega) hw1 (by omega) hh1
      hsz
    refine ⟨_, _, hlay, hlay', ?_, ?_, ?_, hmono⟩
    · intro b' hb'
      rw [hb] at hb'
      cases hb'
      exact mul_le_mul_of_nonneg_right hwh (le_of_lt hbpos)
    · intro h422
      rcases h422 with rfl | rfl | rfl <;> cases hb
    · intro h420
      rcases h420 with rfl | rfl | rfl <;> cases hb

/-- Witness of C20: `YV12` layouts for 176x144 and 640x480. -/
theorem size_covers_and_grows_witness :
    ∃ L L', gralloc_layout 32 176 144 .YV12 = some L ∧
      gralloc_layout 32 640 480 .YV12 = some L' ∧
      (∀ b, bpp .YV12 = some b → 176 * 144 * b ≤ L.size) ∧
      (PixelFormat.YV12 = .YCbCr_422_SP ∨ PixelFormat.YV12 = .YCbCr_422_I
          ∨ PixelFormat.YV12 = .YCbCr_422_P →
        2 * (176 * 144) ≤ L.size) ∧
      (PixelFormat.YV12 = .YCbCr_420_SP ∨ PixelFormat.YV12 = .YCbCr_420_P
          ∨ PixelFormat.YV12 = .YV12 →
        3 * (176 * 144) ≤ 2 * L.size) ∧
      L.size ≤ L'.size :=
  size_covers_and_grows 32 176 144 640 480 .YV12 (by decide) (by decide) (by decide)
    (by decide) (by decide) (by intro code h; cases h) (fun _ => by decide)
    (by intro b hb; cases hb)

/-! ## The slot bitmap and the live handles -/

/-- With more slots than the mask has bits the shift of line 150 is
undefined. -/
theorem framebuffer_locked_wide (env : Sys) (m : private_module_t) (size : Int)
    (usage : Nat) (fb : private_handle_t) (hfb : m.framebuffer = some fb)
    (hn : 32 ≤ m.numBuffers) :
    gralloc_alloc_framebuffer_locked env m size usage = none := by
  have h1 : ¬ m.numBuffers = 1 := by omega
  unfold gralloc_alloc_framebuffer_locked
  simp only [map_on_first_use_mapped env m fb hfb, h1, hn, if_false, if_true]
  simp

/-- Freeing the slice of slot `k`: bit `k` is cleared. -/
theorem free_slice_at (env : Sys) (m : private_module_t) (hnd fb : private_handle_t)
    (k : Nat) (hmagic : hnd.magic = sMagic)
    (hflags : hnd.flags = PRIV_FLAGS_USES_ION ||| PRIV_FLAGS_FRAMEBUFFER)
    (hfb : m.framebuffer = some fb) (hbs : 0 < bufferSize m)
    (hbase : hnd.base = toInt32 (fb.base + k * bufferSize m)) (hk : k < 32)
    (hfit : k * bufferSize m < 4294967296) :
    gralloc_free env m (some hnd)
      = some ⟨0, { m with bufferMask := m.bufferMask &&& (0xFFFFFFFF ^^^ (1 <<< k)) },
              [.close hnd.fd]⟩ := by
  have hi : toInt32 (k : Int) = k := toInt32_eq_self (by omega) (by omega)
  have hbs0 : ¬ bufferSize m = 0 := by omega
  have hrange : ¬ ((k : Int) < 0 ∨ 32 ≤ (k : Int)) := by omega
  have hv : ¬ private_handle_t.validate (some hnd) < 0 := by
    simp [private_handle_t.validate, hmagic]
  have hfl : hnd.flags &&& PRIV_FLAGS_FRAMEBUFFER ≠ 0 := by rw [hflags]; decide
  have hnn : (0 : Int) ≤ k * bufferSize m := mul_nonneg (by omega) (le_of_lt hbs)
  have hw : toSizeT (toInt32 (hnd.base - fb.base)) = k * bufferSize m := by
    rw [hbase]
    generalize (k : Int) * bufferSize m = x at hnn hfit
    generalize fb.base = a
    clear hi hbs0 hrange hv hfl hbase hbs hfb hk hflags hmagic
    unfold toSizeT toInt32
    omega
  have hq : toSizeT (toInt32 (hnd.base - fb.base)) / bufferSize m = k := by
    rw [hw]
    exact Int.mul_ediv_cancel _ (by omega)
  unfold gralloc_free
  simp only [hv, hfl, hfb, hbs0, hq, hi, hrange, if_false, if_true, ne_eq,
    not_false_eq_true, Int.toNat_ofNat]

/-- Slots of a region that fits the 32-bit address space whose 32-bit
addresses are equal are the same slot. -/
theorem slot_index_eq {base bs : Int} {i k : Nat} (hbs : 0 < bs)
    (hi : i * bs < 4294967296) (hk : k * bs < 4294967296)
    (h : toInt32 (base + i * bs) = toInt32 (base + k * bs)) : i = k := by
  have hi0 : (0 : Int) ≤ i * bs := mul_nonneg (by omega) (le_of_lt hbs)
  have hk0 : (0 : Int) ≤ k * bs := mul_nonneg (by omega) (le_of_lt hbs)
  have h2 : (i : Int) * bs = k * bs := by
    generalize (i : Int) * bs = x at hi hi0 h
    generalize (k : Int) * bs = y at hk hk0 h
    unfold toInt32 at h
    omega
  have h3 := Int.eq_of_mul_eq_mul_right (by omega) h2
  omega

/-- Every slot of a region of `n` slots that fits the 32-bit address space
starts below `2^32`. -/
theorem slot_fits {bs : Int} {n k : Nat} (hbs : 0 < bs) (hk : k < n)
    (hfit : n * bs ≤ 4294967296) : (k : Int) * bs < 4294967296 := by
  have h1 : ((k : Int) + 1) * bs ≤ n * bs :=
    mul_le_mul_of_nonneg_right (by omega) (le_of_lt hbs)
  have h2 : ((k : Int) + 1) * bs = k * bs + bs := by ring
  omega

/-- A successful framebuffer-slice allocation preserves the invariant. -/
theorem slot_invariant_alloc (m0 : private_module_t) (fb : private_handle_t) (s s1 : FbState)
    (env : Sys) (size : Int) (usage : Nat)
    (hN : 1 < m0.numBuffers) (hbs : 0 < bufferSize m0)
    (hfit : m0.numBuffers * bufferSize m0 ≤ 4294967296)
    (hinv : slot_invariant m0 fb s) (hstep : fb_step s (.alloc env size usage) = some s1) :
    slot_invariant m0 fb s1 := by
  obtain ⟨i1, i2, i3, i4, _, i6, i7, i8⟩ := hinv
  have hn1 : s.module.numBuffers ≠ 1 := by omega
  simp only [fb_step] at hstep
  by_cases hwide : 32 ≤ s.module.numBuffers
  · rw [framebuffer_locked_wide env s.module size usage fb i1 hwide] at hstep
    cases hstep
  · have hn2 : s.module.numBuffers < 32 := by omega
    by_cases hfull : 2 ^ s.module.numBuffers - 1 ≤ s.module.bufferMask
    · rw [slots_exhausted env s.module size usage fb i1 hn1 hn2 hfull] at hstep
      simp only at hstep
      have hne : ¬ (-ENOMEM : Int) = 0 := by decide
      simp only [hne, if_false] at hstep
      cases hstep
    · have hmask : s.module.bufferMask < 2 ^ s.module.numBuffers - 1 := by omega
      obtain ⟨i, hi, hclear, hlow⟩ :=
        exists_lowest_clear_bit s.module.bufferMask s.module.numBuffers hmask
      rw [slot_claim_at env s.module size usage fb i i1 hn1 hn2 hmask hi hclear hlow] at hstep
      simp only [if_true] at hstep
      cases hstep
      have hiN : i < m0.numBuffers := by omega
      have hpow : 2 ^ i < 2 ^ m0.numBuffers := Nat.pow_lt_pow_right (by decide) hiN
      refine ⟨i1, i2, i3, Nat.or_lt_two_pow i4 hpow, Or.inr (by omega), ?_, ?_, ?_⟩
      · simp only [List.map_cons, List.nodup_cons]
        refine ⟨?_, i6⟩
        intro hmem
        obtain ⟨hnd', hmem', hb⟩ := List.mem_map.1 hmem
        obtain ⟨_, _, k, hkN, hbase, hbit⟩ := i7 hnd' hmem'
        rw [hbase] at hb
        have hb2 : toInt32 (fb.base + (k : Int) * bufferSize m0)
            = toInt32 (fb.base + (i : Int) * bufferSize m0) := by
          rw [hb]
          show toInt32 (fb.base + (i : Int) * bufferSize s.module) = _
          rw [i3]
        have hki := slot_index_eq hbs (slot_fits hbs hkN hfit) (slot_fits hbs hiN hfit) hb2
        subst hki
        rw [hclear] at hbit
        cases hbit
      · intro hnd' hmem
        rcases List.mem_cons.1 hmem with rfl | hold
        · refine ⟨rfl, rfl, i, hiN, ?_, ?_⟩
          · show toInt32 (fb.base + (i : Int) * bufferSize s.module) = _
            rw [i3]
          · show (s.module.bufferMask ||| 2 ^ i).testBit i = true
            rw [Nat.testBit_or, Nat.testBit_two_pow_self]
            simp
        · obtain ⟨h1, h2, k, hk, hbase, hbit⟩ := i7 hnd' hold
          refine ⟨h1, h2, k, hk, hbase, ?_⟩
          show (s.module.bufferMask ||| 2 ^ i).testBit k = true
          rw [Nat.testBit_or, hbit]
          simp
      · intro k hk hbit
        have hbit2 : (s.module.bufferMask ||| 2 ^ i).testBit k = true := hbit
        rw [Nat.testBit_or, Nat.testBit_two_pow] at hbit2
        by_cases hik : i = k
        · subst hik
          refine ⟨_, List.mem_cons_self _ _, ?_⟩
          show toInt32 (fb.base + (i : Int) * bufferSize s.module) = _
          rw [i3]
        · simp only [hik, decide_False, Bool.or_false] at hbit2
          obtain ⟨hnd', hmem', hb⟩ := i8 k hk hbit2
          exact ⟨hnd', List.mem_cons_of_mem _ hmem', hb⟩

/-- The free of a live handle preserves the invariant. -/
theorem slot_invariant_free (m0 : private_module_t) (fb : private_handle_t) (s s1 : FbState)
    (env : Sys) (hnd : private_handle_t)
    (hbs : 0 < bufferSize m0) (hfit : m0.numBuffers * bufferSize m0 ≤ 4294967296)
    (hinv : slot_invariant m0 fb s) (hstep : fb_step s (.free env hnd) = some s1) :
    slot_invariant m0 fb s1 := by
  obtain ⟨i1, i2, i3, i4, i5, i6, i7, i8⟩ := hinv
  simp only [fb_step] at hstep
  split_ifs at hstep with hlive
  obtain ⟨hmagic, hflags, k, hk, hbase, hbit⟩ := i7 hnd hlive
  have hN32 : m0.numBuffers < 32 := by
    rcases i5 with h | h
    · rw [h] at hlive; cases hlive
    · exact h
  have hkfit : (k : Int) * bufferSize m0 < 4294967296 := slot_fits hbs hk hfit
  rw [free_slice_at env s.module hnd fb k hmagic hflags i1 (by rw [i3]; exact hbs)
    (by rw [i3]; exact hbase) (by omega) (by rw [i3]; exact hkfit)] at hstep
  cases hstep
  have hpow : 2 ^ m0.numBuffers ≤ 2 ^ 32 := Nat.pow_le_pow_right (by decide) (by omega)
  have hm32 : s.module.bufferMask < 2 ^ 32 := by omega
  have hclr := clear_bit_testBit s.module.bufferMask k hm32
  have hnodup : s.live.Nodup := List.Nodup.of_map _ i6
  refine ⟨i1, i2, i3, lt_of_le_of_lt Nat.and_le_left i4, Or.inr hN32, ?_, ?_, ?_⟩
  · exact List.Nodup.sublist ((List.erase_sublist hnd s.live).map _) i6
  · intro hnd' hmem
    obtain ⟨hne, hold⟩ := (List.Nodup.mem_erase_iff hnodup).1 hmem
    obtain ⟨h1, h2, k', hk', hbase', hbit'⟩ := i7 hnd' hold
    refine ⟨h1, h2, k', hk', hbase', ?_⟩
    show (s.module.bufferMask &&& (0xFFFFFFFF ^^^ (1 <<< k))).testBit k' = true
    rw [hclr, hbit']
    have hkk : ¬ k' = k := by
      intro he
      subst he
      exact hne (List.inj_on_of_nodup_map i6 hold hlive
        (by show hnd'.base = hnd.base; rw [hbase', hbase]))
    simp [hkk]
  · intro k' hk' hbit'
    have hb2 : (s.module.bufferMask &&& (0xFFFFFFFF ^^^ (1 <<< k))).testBit k' = true := hbit'
    rw [hclr] at hb2
    have hkk : ¬ k' = k := by
      intro he
      subst he
      simp at hb2
    have hold : s.module.bufferMask.testBit k' = true := by
      simp only [hkk, decide_False, Bool.not_false, Bool.and_true] at hb2
      exact hb2
    obtain ⟨hnd', hmem', hb⟩ := i8 k' hk' hold
    refine ⟨hnd', (List.Nodup.mem_erase_iff hnodup).2 ⟨?_, hmem'⟩, hb⟩
    intro he
    subst he
    rw [hbase] at hb
    exact hkk (slot_index_eq hbs hkfit (slot_fits hbs hk' hfit) hb).symm

/-- Every run of successful allocations and frees of live handles preserves the
invariant. -/
theorem slot_invariant_run (m0 : private_module_t) (fb : private_handle_t)
    (hN : 1 < m0.numBuffers) (hbs : 0 < bufferSize m0)
    (hfit : m0.numBuffers * bufferSize m0 ≤ 4294967296) :
    ∀ (ops : List FbOp) (s s1 : FbState), slot_invariant m0 fb s →
      fb_run ops s = some s1 → slot_invariant m0 fb s1 := by
  intro ops
  induction ops with
  | nil =>
    intro s s1 hinv hrun
    simp only [fb_run, Option.some.injEq] at hrun
    subst hrun
    exact hinv
  | cons op rest ih =>
    intro s s1 hinv hrun
    simp only [fb_run] at hrun
    split at hrun
    · cases hrun
    · rename_i s2 hstep
      refine ih s2 s1 ?_ hrun
      cases op with
      | alloc env size usage =>
        exact slot_invariant_alloc m0 fb s s2 env size usage hN hbs hfit hinv hstep
      | free env hnd => exact slot_invariant_free m0 fb s s2 env hnd hbs hfit hinv hstep

/-- C13: from the initial state (framebuffer mapped, `numBuffers > 1`,
`bufferSize > 0`, empty bitmap, the `numBuffers` slices lying in the 32-bit
address space), after any sequence of successful framebuffer-slice allocations
and of frees of handles that are live (each handle leaves the live set when it
is freed), `bufferMask` has no bit set at or above index `numBuffers`, and for
every `k < numBuffers` bit `k` is set if and only if some live handle has
`base = framebuffer.base + k * bufferSize`, the sum being the 32-bit `int` that
line 170 stores in the handle, which is the plain sum whenever that sum is an
`int`. -/
theorem slot_bitmap_invariant (m0 : private_module_t) (fb : private_handle_t)
    (ops : List FbOp) (s : FbState)
    (hfb : m0.framebuffer = some fb) (hN : 1 < m0.numBuffers) (hbs : 0 < bufferSize m0)
    (hzero : m0.bufferMask = 0)
    (hfit : m0.numBuffers * bufferSize m0 ≤ 4294967296)
    (hrun : fb_run ops ⟨m0, []⟩ = some s) :
    (∀ j, m0.numBuffers ≤ j → s.module.bufferMask.testBit j = false) ∧
    (∀ k : Nat, k < m0.numBuffers →
      (s.module.bufferMask.testBit k = true ↔
        ∃ hnd, hnd ∈ s.live ∧ hnd.base = toInt32 (fb.base + k * bufferSize m0))) ∧
    (∀ k : Nat, k < m0.numBuffers →
      -2147483648 ≤ fb.base + k * bufferSize m0 → fb.base + k * bufferSize m0 < 2147483648 →
      (s.module.bufferMask.testBit k = true ↔
        ∃ hnd, hnd ∈ s.live ∧ hnd.base = fb.base + k * bufferSize m0)) ∧
    s.module.framebuffer = some fb ∧ s.module.numBuffers = m0.numBuffers ∧
    bufferSize s.module = bufferSize m0 := by
  have hinit : slot_invariant m0 fb ⟨m0, []⟩ := by
    refine ⟨hfb, rfl, rfl, ?_, Or.inl rfl, List.nodup_nil, ?_, ?_⟩
    · show m0.bufferMask < 2 ^ m0.numBuffers
      rw [hzero]; exact Nat.pow_pos (by decide)
    · intro hnd h; cases h
    · intro k _ hbit
      have hb : m0.bufferMask.testBit k = true := hbit
      rw [hzero] at hb
      simp at hb
  obtain ⟨i1, i2, i3, i4, _, _, i7, i8⟩ :=
    slot_invariant_run m0 fb hN hbs hfit ops ⟨m0, []⟩ s hinit hrun
  have hiff : ∀ k : Nat, k < m0.numBuffers →
      (s.module.bufferMask.testBit k = true ↔
        ∃ hnd, hnd ∈ s.live ∧ hnd.base = toInt32 (fb.base + k * bufferSize m0)) := by
    intro k hk
    constructor
    · exact i8 k hk
    · rintro ⟨hnd, hmem, hb⟩
      obtain ⟨_, _, k', hk', hbase', hbit'⟩ := i7 hnd hmem
      rw [hbase'] at hb
      have := slot_index_eq hbs (slot_fits hbs hk' hfit) (slot_fits hbs hk hfit) hb
      subst this
      exact hbit'
  refine ⟨?_, hiff, ?_, i1, i2, i3⟩
  · intro j hj
    have hle : 2 ^ m0.numBuffers ≤ 2 ^ j := Nat.pow_le_pow_right (by decide) hj
    exact Nat.testBit_lt_two_pow (by omega)
  · intro k hk h0 h1
    have h := hiff k hk
    rw [toInt32_eq_self h0 h1] at h
    exact h

/-- Witness of C13: two slots of `0x80000` bytes at `0x7FFC0000`; after two
allocations and the free of the handle of slot 0, bit 1 is the only bit set and
the only live handle is the one of slot 1, whose base `0x80040000` is stored as
the `int` `-2147221504`. -/
theorem slot_bitmap_invariant_witness :
    fb_run [.alloc sample_sys 0 GRALLOC_USAGE_HW_FB, .alloc sample_sys 0 GRALLOC_USAGE_HW_FB,
            .free sample_sys (high_slice 0)] ⟨high_module 2 0, []⟩
      = some ⟨high_module 2 2, [high_slice 1]⟩ ∧
    (high_slice 1).base = -2147221504 ∧
    (∀ k : Nat, k < (high_module 2 0).numBuffers →
      ((high_module 2 2).bufferMask.testBit k = true ↔
        ∃ hnd, hnd ∈ [high_slice 1] ∧
          hnd.base = toInt32 (high_framebuffer.base + k * bufferSize (high_module 2 0)))) :=
  ⟨by decide, by decide,
   (slot_bitmap_invariant (high_module 2 0) high_framebuffer
      [.alloc sample_sys 0 GRALLOC_USAGE_HW_FB, .alloc sample_sys 0 GRALLOC_USAGE_HW_FB,
       .free sample_sys (high_slice 0)] ⟨high_module 2 2, [high_slice 1]⟩
      rfl (by decide) (by decide) rfl (by decide) (by decide)).2.1⟩

end Gralloc
